import Mathlib

/-!
Verification of the phased-generation workflow engine of the PRD-Generator-MVP
repository, by shallow embedding of its Python source into Lean.

Embedded modules:
* src/prdgen/artifact_types.py   — artifact type enumeration and filename table
* src/prdgen/dependencies.py     — ArtifactDependencyResolver.resolve
* src/prdgen/phased/phases.py    — phase definitions, snapshots, SHA-256 integrity
* src/prdgen/phased/flows.py     — PhasedFlowRunner (orchestrator)
* src/backend/app/store/phase_store.py — SQLite row updates (partial patches)
* src/backend/app/services/phase_service.py — PhaseService operations

Machine integers are modelled as Nat with explicit reduction mod 2^32 where the
source (SHA-256) overflows; Python dicts are modelled as association lists with
the same insert/replace semantics; fallible code returns Option or Except.
-/

set_option maxRecDepth 4000
set_option autoImplicit false
set_option linter.unusedSectionVars false
set_option linter.unusedVariables false

namespace PRDGen

/-- Artifact type identifiers.  The Python enum `ArtifactType` in
src/prdgen/artifact_types.py declares ten members (context_summary,
corpus_summary, prd, capabilities, capability_cards, epics, features,
user_stories, lean_canvas, technical_architecture).  The source additionally
references `ArtifactType.ROADMAP` (src/prdgen/phased/phases.py line 76 and
src/prdgen/generator.py), a name that is absent from the enum declaration; we
include a `roadmap` constructor so those references can be embedded, and record
enum membership separately in `ArtifactType.inEnum`. -/
inductive ArtifactType where
  | context_summary
  | corpus_summary
  | prd
  | capabilities
  | capability_cards
  | epics
  | features
  | user_stories
  | lean_canvas
  | technical_architecture
  | roadmap
deriving DecidableEq, Fintype

namespace ArtifactType

/-- String value of each artifact type (the `.value` of the Python str-enum).
The value used for the out-of-enum `roadmap` reference is "roadmap", the string
used for its prompts in src/prdgen/generator.py. -/
def value : ArtifactType → String
  | context_summary => "context_summary"
  | corpus_summary => "corpus_summary"
  | prd => "prd"
  | capabilities => "capabilities"
  | capability_cards => "capability_cards"
  | epics => "epics"
  | features => "features"
  | user_stories => "user_stories"
  | lean_canvas => "lean_canvas"
  | technical_architecture => "technical_architecture"
  | roadmap => "roadmap"

/-- Whether the identifier is an actual member of the Python enum
`ArtifactType` (all except `roadmap`). -/
def inEnum : ArtifactType → Bool
  | roadmap => false
  | _ => true

/-- Embeds the Python value-lookup conversion `ArtifactType(name)`:
returns the enum member whose `.value` equals `name`, or none
(Python raises ValueError).  `roadmap` is not a member of the enum. -/
def fromString (name : String) : Option ArtifactType :=
  [context_summary, corpus_summary, prd, capabilities, capability_cards,
   epics, features, user_stories, lean_canvas,
   technical_architecture].find? (fun a => a.value == name)

end ArtifactType

open ArtifactType

/-- ARTIFACT_FILENAMES from src/prdgen/artifact_types.py: file name for each
artifact type (ten entries; the enum members only). -/
def ARTIFACT_FILENAMES : List (ArtifactType × String) :=
  [(context_summary, "context_summary.md"),
   (corpus_summary, "corpus_summary.md"),
   (prd, "prd.md"),
   (capabilities, "capabilities.md"),
   (capability_cards, "capability_cards.md"),
   (epics, "epics.md"),
   (features, "features.md"),
   (user_stories, "user_stories.md"),
   (lean_canvas, "lean_canvas.md"),
   (technical_architecture, "architecture_reference.md")]

/-- ArtifactDependencyResolver.DEPENDENCIES (src/prdgen/dependencies.py lines
17-51): artifact type to list of required predecessors.  The dict has exactly
eight keys; `context_summary`, `technical_architecture` and `roadmap` have no
entry, so a dict lookup for them raises KeyError — modelled as `none`. -/
def DEPENDENCIES : ArtifactType → Option (List ArtifactType)
  | corpus_summary => some []
  | prd => some [corpus_summary]
  | capabilities => some [corpus_summary, prd]
  | capability_cards => some [corpus_summary, prd, capabilities]
  | epics => some [corpus_summary, prd, capabilities, capability_cards]
  | features => some [corpus_summary, prd, epics]
  | user_stories => some [corpus_summary, prd, epics, features]
  | lean_canvas => some [corpus_summary, prd, capabilities]
  | _ => none

/-- ArtifactDependencyResolver.GENERATION_ORDER (src/prdgen/dependencies.py
lines 54-63): the canonical generation order. -/
def GENERATION_ORDER : List ArtifactType :=
  [corpus_summary, prd, capabilities, capability_cards,
   epics, features, user_stories, lean_canvas]

mutual

/-- The inner recursion `add_with_deps(artifact)` of
ArtifactDependencyResolver.resolve (src/prdgen/dependencies.py lines 82-89).
`required` is the accumulated set (modelled as a list; only membership is
observed downstream).  A missing DEPENDENCIES key is Python KeyError, modelled
as `none`.  The fuel argument only bounds recursion depth; `resolve` supplies
more fuel than the depth of the (acyclic, fixed) dependency table, so the
fuel-out branch is never taken there. -/
def addWithDeps : Nat → ArtifactType → List ArtifactType → Option (List ArtifactType)
  | 0, _, _ => none
  | fuel + 1, a, required =>
    if a ∈ required then some required
    else
      match DEPENDENCIES a with
      | none => none
      | some deps =>
        match addDepsList fuel deps required with
        | none => none
        | some req2 => some (req2 ++ [a])
termination_by fuel _ _ => (fuel, 0)

/-- Runs `add_with_deps` over each element of a list in order (the
`for dep in cls.DEPENDENCIES[artifact]` loop, and the outer
`for artifact in selected` loop of resolve). -/
def addDepsList : Nat → List ArtifactType → List ArtifactType → Option (List ArtifactType)
  | _, [], required => some required
  | fuel, d :: ds, required =>
    match addWithDeps fuel d required with
    | none => none
    | some r => addDepsList fuel ds r
termination_by fuel ds _ => (fuel, ds.length + 1)

end

/-- ArtifactDependencyResolver.resolve (src/prdgen/dependencies.py lines
65-102).  The argument is the iteration order of the Python set `selected`;
the result is proven further below to depend only on membership.  Returns the
members of GENERATION_ORDER belonging to the accumulated required set, or
`none` when the Python code raises KeyError. -/
def resolve (selected : List ArtifactType) : Option (List ArtifactType) :=
  match addDepsList 16 selected [] with
  | none => none
  | some required => some (GENERATION_ORDER.filter (fun a => a ∈ required))

/-! ### Analysis of resolve -/

/-- An artifact type is a key of the DEPENDENCIES dict. -/
def Good (a : ArtifactType) : Prop := (DEPENDENCIES a).isSome

instance : DecidablePred Good := fun a => by unfold Good; infer_instance

/-- Direct prerequisites of an artifact (empty for non-keys). -/
def depsOf (a : ArtifactType) : List ArtifactType := (DEPENDENCIES a).getD []

/-- Position of each DEPENDENCIES key in GENERATION_ORDER; every direct
prerequisite has smaller rank (checked by decide in the proofs below). -/
def rank : ArtifactType → Nat
  | corpus_summary => 0
  | prd => 1
  | capabilities => 2
  | capability_cards => 3
  | epics => 4
  | features => 5
  | user_stories => 6
  | lean_canvas => 7
  | _ => 10

/-- Transitive dependency closure of each DEPENDENCIES key (a lookup table;
its correctness is forced by the proofs of the characterization lemmas). -/
def clos : ArtifactType → List ArtifactType
  | corpus_summary => [corpus_summary]
  | prd => [corpus_summary, prd]
  | capabilities => [corpus_summary, prd, capabilities]
  | capability_cards => [corpus_summary, prd, capabilities, capability_cards]
  | epics => [corpus_summary, prd, capabilities, capability_cards, epics]
  | features => [corpus_summary, prd, capabilities, capability_cards, epics, features]
  | user_stories =>
      [corpus_summary, prd, capabilities, capability_cards, epics, features, user_stories]
  | lean_canvas => [corpus_summary, prd, capabilities, lean_canvas]
  | _ => []

/-- A required-set is closed when it contains the direct prerequisites of all
of its members (the invariant of add_with_deps's accumulated set). -/
def Closed (req : List ArtifactType) : Prop :=
  ∀ a ∈ req, ∀ d ∈ depsOf a, d ∈ req

lemma closed_nil : Closed [] := by intro a ha; cases ha

/-- In a closed required-set, membership of a key implies membership of its
whole transitive closure. -/
lemma clos_subset_of_closed {req : List ArtifactType} (hc : Closed req) :
    ∀ a, Good a → a ∈ req → ∀ x ∈ clos a, x ∈ req := by
  intro a ha hmem x hx
  have step : ∀ b ∈ req, ∀ d ∈ depsOf b, d ∈ req := hc
  cases a with
  | corpus_summary => simp [clos] at hx; subst hx; exact hmem
  | prd =>
      have h0 : corpus_summary ∈ req := step _ hmem corpus_summary (by decide)
      fin_cases hx <;> assumption
  | capabilities =>
      have h0 : corpus_summary ∈ req := step _ hmem corpus_summary (by decide)
      have h1 : prd ∈ req := step _ hmem prd (by decide)
      fin_cases hx <;> assumption
  | capability_cards =>
      have h0 : corpus_summary ∈ req := step _ hmem corpus_summary (by decide)
      have h1 : prd ∈ req := step _ hmem prd (by decide)
      have h2 : capabilities ∈ req := step _ hmem capabilities (by decide)
      fin_cases hx <;> assumption
  | epics =>
      have h0 : corpus_summary ∈ req := step _ hmem corpus_summary (by decide)
      have h1 : prd ∈ req := step _ hmem prd (by decide)
      have h2 : capabilities ∈ req := step _ hmem capabilities (by decide)
      have h3 : capability_cards ∈ req := step _ hmem capability_cards (by decide)
      fin_cases hx <;> assumption
  | features =>
      have h1 : prd ∈ req := step _ hmem prd (by decide)
      have h0 : corpus_summary ∈ req := step _ hmem corpus_summary (by decide)
      have h4 : epics ∈ req := step _ hmem epics (by decide)
      have h2 : capabilities ∈ req := step _ h4 capabilities (by decide)
      have h3 : capability_cards ∈ req := step _ h4 capability_cards (by decide)
      fin_cases hx <;> assumption
  | user_stories =>
      have h0 : corpus_summary ∈ req := step _ hmem corpus_summary (by decide)
      have h1 : prd ∈ req := step _ hmem prd (by decide)
      have h4 : epics ∈ req := step _ hmem epics (by decide)
      have h5 : features ∈ req := step _ hmem features (by decide)
      have h2 : capabilities ∈ req := step _ h4 capabilities (by decide)
      have h3 : capability_cards ∈ req := step _ h4 capability_cards (by decide)
      fin_cases hx <;> assumption
  | lean_canvas =>
      have h0 : corpus_summary ∈ req := step _ hmem corpus_summary (by decide)
      have h1 : prd ∈ req := step _ hmem prd (by decide)
      have h2 : capabilities ∈ req := step _ hmem capabilities (by decide)
      fin_cases hx <;> assumption
  | context_summary => exact absurd ha (by decide)
  | technical_architecture => exact absurd ha (by decide)
  | roadmap => exact absurd ha (by decide)

/-- Characterization of addWithDeps on DEPENDENCIES keys: it succeeds, keeps
the required-set closed, and adds exactly the transitive closure of its
argument. -/
lemma addWithDeps_char :
    ∀ fuel, (∀ a req, rank a < fuel → Good a → Closed req →
      ∃ r, addWithDeps fuel a req = some r ∧ Closed r ∧
        (∀ x, x ∈ r ↔ x ∈ req ∨ x ∈ clos a)) := by
  intro fuel
  induction fuel with
  | zero => intro a req h; omega
  | succ f ih =>
    -- first lift the inductive hypothesis to lists of keys
    have adl : ∀ ds req, (∀ d ∈ ds, Good d ∧ rank d < f) → Closed req →
        ∃ r, addDepsList f ds req = some r ∧ Closed r ∧
          (∀ x, x ∈ r ↔ x ∈ req ∨ ∃ d ∈ ds, x ∈ clos d) := by
      intro ds
      induction ds with
      | nil =>
          intro req _ hreq
          exact ⟨req, by simp [addDepsList], hreq, by simp⟩
      | cons d ds ihds =>
          intro req hds hreq
          obtain ⟨hd, hdrank⟩ := hds d (by simp)
          obtain ⟨r1, hr1, hc1, hm1⟩ := ih d req hdrank hd hreq
          obtain ⟨r2, hr2, hc2, hm2⟩ :=
            ihds r1 (fun x hx => hds x (by simp [hx])) hc1
          refine ⟨r2, ?_, hc2, ?_⟩
          · simp [addDepsList, hr1, hr2]
          · intro x
            rw [hm2]
            constructor
            · rintro (hx | hx)
              · rcases (hm1 x).1 hx with hx | hx
                · exact Or.inl hx
                · exact Or.inr ⟨d, by simp, hx⟩
              · obtain ⟨e, he, hx⟩ := hx
                exact Or.inr ⟨e, by simp [he], hx⟩
            · rintro (hx | ⟨e, he, hx⟩)
              · exact Or.inl ((hm1 x).2 (Or.inl hx))
              · rcases List.mem_cons.1 he with rfl | he
                · exact Or.inl ((hm1 x).2 (Or.inr hx))
                · exact Or.inr ⟨e, he, hx⟩
    intro a req hrank ha hreq
    by_cases hmem : a ∈ req
    · refine ⟨req, by simp [addWithDeps, hmem], hreq, ?_⟩
      intro x
      constructor
      · exact Or.inl
      · rintro (hx | hx)
        · exact hx
        · exact clos_subset_of_closed hreq a ha hmem x hx
    · obtain ⟨deps, hdeps⟩ := Option.isSome_iff_exists.1 ha
      have hdepsgood : ∀ d ∈ deps, Good d ∧ rank d < f := by
        have hfact : ∀ b, Good b → ∀ d ∈ depsOf b, Good d ∧ rank d < rank b := by decide
        intro d hd
        have := hfact a ha d (by simp [depsOf, hdeps, hd])
        exact ⟨this.1, lt_of_lt_of_le this.2 (Nat.lt_succ_iff.1 hrank)⟩
      obtain ⟨r2, hr2, hc2, hm2⟩ := adl deps req hdepsgood hreq
      refine ⟨r2 ++ [a], by simp [addWithDeps, hmem, hdeps, hr2], ?_, ?_⟩
      · intro b hb d hd
        rcases List.mem_append.1 hb with hb | hb
        · exact List.mem_append.2 (Or.inl (hc2 b hb d hd))
        · simp only [List.mem_singleton] at hb
          subst hb
          have hdd : d ∈ deps := by
            simpa [depsOf, hdeps] using hd
          have hdclos : d ∈ clos d := by
            have : Good d := (hdepsgood d hdd).1
            revert this
            have : ∀ e, Good e → e ∈ clos e := by decide
            exact this d
          exact List.mem_append.2 (Or.inl ((hm2 d).2 (Or.inr ⟨d, hdd, hdclos⟩)))
      · intro x
        have hclosfact : ∀ b, Good b →
            ∀ x, x ∈ clos b ↔ (∃ d ∈ depsOf b, x ∈ clos d) ∨ x = b := by decide
        rw [List.mem_append, List.mem_singleton, hm2,
          hclosfact a ha x]
        constructor
        · rintro ((hx | ⟨d, hd, hx⟩) | rfl)
          · exact Or.inl hx
          · exact Or.inr (Or.inl ⟨d, by simp [depsOf, hdeps, hd], hx⟩)
          · exact Or.inr (Or.inr rfl)
        · rintro (hx | (⟨d, hd, hx⟩ | rfl))
          · exact Or.inl (Or.inl hx)
          · refine Or.inl (Or.inr ⟨d, ?_, hx⟩)
            simpa [depsOf, hdeps] using hd
          · exact Or.inr rfl

/-- Characterization of the outer loop of resolve. -/
lemma resolve_char (S : List ArtifactType) (hS : ∀ a ∈ S, Good a) :
    ∃ req, addDepsList 16 S [] = some req ∧ Closed req ∧
      (∀ x, x ∈ req ↔ ∃ a ∈ S, x ∈ clos a) ∧
      resolve S = some (GENERATION_ORDER.filter (fun a => a ∈ req)) := by
  have hrank : ∀ a ∈ S, Good a ∧ rank a < 16 := by
    intro a ha
    refine ⟨hS a ha, ?_⟩
    have : ∀ b : ArtifactType, rank b < 16 := by decide
    exact this a
  -- the outer loop is addDepsList at fuel 16; reuse the lift from the proof above
  have adl : ∀ ds req, (∀ d ∈ ds, Good d ∧ rank d < 16) → Closed req →
      ∃ r, addDepsList 16 ds req = some r ∧ Closed r ∧
        (∀ x, x ∈ r ↔ x ∈ req ∨ ∃ d ∈ ds, x ∈ clos d) := by
    intro ds
    induction ds with
    | nil => intro req _ hreq; exact ⟨req, by simp [addDepsList], hreq, by simp⟩
    | cons d ds ihds =>
        intro req hds hreq
        obtain ⟨hd, hdrank⟩ := hds d (by simp)
        obtain ⟨r1, hr1, hc1, hm1⟩ := addWithDeps_char 16 d req hdrank hd hreq
        obtain ⟨r2, hr2, hc2, hm2⟩ := ihds r1 (fun x hx => hds x (by simp [hx])) hc1
        refine ⟨r2, by simp [addDepsList, hr1, hr2], hc2, ?_⟩
        intro x
        rw [hm2]
        constructor
        · rintro (hx | hx)
          · rcases (hm1 x).1 hx with hx | hx
            · exact Or.inl hx
            · exact Or.inr ⟨d, by simp, hx⟩
          · obtain ⟨e, he, hx⟩ := hx
            exact Or.inr ⟨e, by simp [he], hx⟩
        · rintro (hx | ⟨e, he, hx⟩)
          · exact Or.inl ((hm1 x).2 (Or.inl hx))
          · rcases List.mem_cons.1 he with rfl | he
            · exact Or.inl ((hm1 x).2 (Or.inr hx))
            · exact Or.inr ⟨e, he, hx⟩
  obtain ⟨req, hreq, hc, hm⟩ := adl S [] hrank closed_nil
  refine ⟨req, hreq, hc, ?_, ?_⟩
  · intro x
    rw [hm]
    simp
  · simp [resolve, hreq]

end PRDGen

namespace PRDGen

open ArtifactType

/-- C4.  For every set S of artifact types drawn from the dependency table,
resolve(S) succeeds and returns an ordered list L such that: L contains every
element of S; L contains every prerequisite of every element it contains (so
the transitive closure is complete); L is a sublist of the canonical
GENERATION_ORDER (hence listed in the one canonical total order); and any
call on a list with the same membership (the iteration order of the Python
set is immaterial) returns the identical list. -/
theorem claim_C4_resolve_closure (S : List ArtifactType)
    (hS : ∀ a ∈ S, (DEPENDENCIES a).isSome) :
    ∃ L, resolve S = some L ∧
      (∀ a ∈ S, a ∈ L) ∧
      (∀ b ∈ L, ∀ d ∈ depsOf b, d ∈ L) ∧
      L.Sublist GENERATION_ORDER ∧
      (∀ T : List ArtifactType, (∀ a, a ∈ T ↔ a ∈ S) → resolve T = some L) := by
  obtain ⟨req, _, _, hm, hres⟩ := resolve_char S hS
  refine ⟨GENERATION_ORDER.filter (fun a => a ∈ req), hres, ?_, ?_, ?_, ?_⟩
  · intro a ha
    have hgood : Good a := hS a ha
    have hordfact : ∀ b, Good b → b ∈ GENERATION_ORDER := by decide
    have hselfclos : ∀ b, Good b → b ∈ clos b := by decide
    refine List.mem_filter.2 ⟨hordfact a hgood, ?_⟩
    exact decide_eq_true ((hm a).2 ⟨a, ha, hselfclos a hgood⟩)
  · intro b hb d hd
    have hbreq : b ∈ req := of_decide_eq_true (List.mem_filter.1 hb).2
    obtain ⟨a, haS, hbclos⟩ := (hm b).1 hbreq
    have hstepfact : ∀ a b d, b ∈ clos a → d ∈ depsOf b → d ∈ clos a := by decide
    have hdreq : d ∈ req := (hm d).2 ⟨a, haS, hstepfact a b d hbclos hd⟩
    have hgoodfact : ∀ a d, d ∈ clos a → Good d := by decide
    have hordfact : ∀ b, Good b → b ∈ GENERATION_ORDER := by decide
    exact List.mem_filter.2
      ⟨hordfact d (hgoodfact a d (hstepfact a b d hbclos hd)), decide_eq_true hdreq⟩
  · exact List.filter_sublist _
  · intro T hT
    have hTgood : ∀ a ∈ T, Good a := fun a ha => hS a ((hT a).1 ha)
    obtain ⟨req2, _, _, hm2, hres2⟩ := resolve_char T hTgood
    rw [hres2]
    congr 1
    apply List.filter_congr
    intro x _
    have : x ∈ req2 ↔ x ∈ req := by
      rw [hm2, hm]
      constructor
      · rintro ⟨a, ha, hx⟩; exact ⟨a, (hT a).1 ha, hx⟩
      · rintro ⟨a, ha, hx⟩; exact ⟨a, (hT a).2 ha, hx⟩
    simp [this]

/-- Witness for C4 at the concrete selection containing only `features`
(the docstring example of resolve). -/
theorem claim_C4_resolve_closure_witness :
    ∃ L, resolve [features] = some L ∧
      (∀ a ∈ [features], a ∈ L) ∧
      (∀ b ∈ L, ∀ d ∈ depsOf b, d ∈ L) ∧
      L.Sublist GENERATION_ORDER ∧
      (∀ T : List ArtifactType, (∀ a, a ∈ T ↔ a ∈ [features]) → resolve T = some L) :=
  claim_C4_resolve_closure [features] (by decide)

/-- C5 is false on the code: the three phase definitions select
context_summary (phase 1), roadmap (phase 2) and technical_architecture
(phase 3), none of which is a key of DEPENDENCIES, so
ArtifactDependencyResolver.resolve raises KeyError (`none` here) on every
phase's own artifact selection instead of returning normally. -/
theorem claim_C5_resolve_raises_on_phase_artifacts :
    resolve [context_summary, corpus_summary, prd, capabilities] = none ∧
    resolve [capability_cards, epics, features, roadmap] = none ∧
    resolve [user_stories, technical_architecture, lean_canvas] = none := by
  refine ⟨?_, ?_, ?_⟩ <;>
    simp [resolve, addDepsList, addWithDeps, DEPENDENCIES]

/-! ### SHA-256

compute_content_hash (src/prdgen/phased/phases.py lines 110-112) is
`hashlib.sha256(content.encode("utf-8")).hexdigest()`.  Artifact contents are
modelled as their UTF-8 byte sequences (List Nat, each < 256); the digest is
modelled as the 256-bit natural number whose big-endian hex expansion is the
hexdigest string (hex encoding is a bijection, so equality of hexdigests is
equality of these numbers).  The implementation below is FIPS 180-4 SHA-256. -/

/-- A byte string: the UTF-8 encoding of a Python str (or raw file bytes). -/
abbrev ByteStr := List Nat

/-- Reduction modulo 2^32 (32-bit machine words as Nat). -/
def mod32 (x : Nat) : Nat := x % 4294967296

/-- Right rotation of a 32-bit word. -/
def rotr (n x : Nat) : Nat := mod32 (Nat.lor (Nat.shiftRight x n) (Nat.shiftLeft x (32 - n)))

/-- Logical right shift. -/
def shr (n x : Nat) : Nat := Nat.shiftRight x n

/-- Bitwise complement of a 32-bit word. -/
def not32 (x : Nat) : Nat := Nat.xor x 4294967295

def sha256K : List Nat :=
  [1116352408, 1899447441, 3049323471, 3921009573, 961987163, 1508970993,
   2453635748, 2870763221, 3624381080, 310598401, 607225278, 1426881987,
   1925078388, 2162078206, 2614888103, 3248222580, 3835390401, 4022224774,
   264347078, 604807628, 770255983, 1249150122, 1555081692, 1996064986,
   2554220882, 2821834349, 2952996808, 3210313671, 3336571891, 3584528711,
   113926993, 338241895, 666307205, 773529912, 1294757372, 1396182291,
   1695183700, 1986661051, 2177026350, 2456956037, 2730485921, 2820302411,
   3259730800, 3345764771, 3516065817, 3600352804, 4094571909, 275423344,
   430227734, 506948616, 659060556, 883997877, 958139571, 1322822218,
   1537002063, 1747873779, 1955562222, 2024104815, 2227730452, 2361852424,
   2428436474, 2756734187, 3204031479, 3329325298]

def sha256H0 : List Nat :=
  [1779033703, 3144134277, 1013904242, 2773480762,
   1359893119, 2600822924, 528734635, 1541459225]

/-- Big-endian bytes (8 of them) of the bit length. -/
def lenBytes64 (bitLen : Nat) : List Nat :=
  [(Nat.shiftRight bitLen 56) % 256, (Nat.shiftRight bitLen 48) % 256,
   (Nat.shiftRight bitLen 40) % 256, (Nat.shiftRight bitLen 32) % 256,
   (Nat.shiftRight bitLen 24) % 256, (Nat.shiftRight bitLen 16) % 256,
   (Nat.shiftRight bitLen 8) % 256, bitLen % 256]

/-- SHA-256 padding: append 0x80, zeros, and the 64-bit big-endian length. -/
def padMessage (msg : ByteStr) : ByteStr :=
  let padZeros := (120 - (msg.length + 1) % 64) % 64
  msg ++ 128 :: List.replicate padZeros 0 ++ lenBytes64 (msg.length * 8)

/-- Group bytes (multiple of 4) into big-endian 32-bit words. -/
def bytesToWords : ByteStr → List Nat
  | b0 :: b1 :: b2 :: b3 :: rest =>
      (b0 * 16777216 + b1 * 65536 + b2 * 256 + b3) :: bytesToWords rest
  | _ => []

def smallSigma0 (x : Nat) : Nat := Nat.xor (Nat.xor (rotr 7 x) (rotr 18 x)) (shr 3 x)
def smallSigma1 (x : Nat) : Nat := Nat.xor (Nat.xor (rotr 17 x) (rotr 19 x)) (shr 10 x)
def bigSigma0 (x : Nat) : Nat := Nat.xor (Nat.xor (rotr 2 x) (rotr 13 x)) (rotr 22 x)
def bigSigma1 (x : Nat) : Nat := Nat.xor (Nat.xor (rotr 6 x) (rotr 11 x)) (rotr 25 x)

/-- Extend the 16-word block to the 64-word message schedule
(n is the number of words still to append). -/
def extendW : Nat → List Nat → List Nat
  | 0, w => w
  | n + 1, w =>
      let i := w.length
      let nw := mod32 (smallSigma1 (w.getD (i - 2) 0) + w.getD (i - 7) 0 +
        smallSigma0 (w.getD (i - 15) 0) + w.getD (i - 16) 0)
      extendW n (w ++ [nw])

/-- One round of the SHA-256 compression function. -/
def sha256Round (k w : Nat) : List Nat → List Nat
  | [a, b, c, d, e, f, g, h] =>
      let S1 := bigSigma1 e
      let ch := Nat.xor (Nat.land e f) (Nat.land (not32 e) g)
      let temp1 := mod32 (h + S1 + ch + k + w)
      let S0 := bigSigma0 a
      let maj := Nat.xor (Nat.xor (Nat.land a b) (Nat.land a c)) (Nat.land b c)
      let temp2 := mod32 (S0 + maj)
      [mod32 (temp1 + temp2), a, b, c, mod32 (d + temp1), e, f, g]
  | s => s

/-- Fold the 64 rounds over (k, w) pairs. -/
def sha256Rounds : List Nat → List Nat → List Nat → List Nat
  | k :: ks, w :: ws, st => sha256Rounds ks ws (sha256Round k w st)
  | _, _, st => st

/-- Process one 64-byte block, updating the 8-word hash state. -/
def sha256Block (block : ByteStr) (H : List Nat) : List Nat :=
  let w := extendW 48 (bytesToWords block)
  let st := sha256Rounds sha256K w H
  List.zipWith (fun h s => mod32 (h + s)) H st

/-- Iterate over n blocks of 64 bytes. -/
def sha256Iter : Nat → ByteStr → List Nat → List Nat
  | 0, _, H => H
  | n + 1, bytes, H => sha256Iter n (bytes.drop 64) (sha256Block (bytes.take 64) H)

/-- SHA-256 digest of a byte string, as the 256-bit natural number whose
big-endian hex expansion is Python's hexdigest. -/
def sha256 (msg : ByteStr) : Nat :=
  let padded := padMessage msg
  let H := sha256Iter (padded.length / 64) padded sha256H0
  H.foldl (fun acc w => acc * 4294967296 + w) 0

/-- compute_content_hash (src/prdgen/phased/phases.py lines 110-112):
SHA-256 of the UTF-8 encoded content. -/
def compute_content_hash (content : ByteStr) : Nat := sha256 content

/-! ### Python dicts as association lists

Insertion-ordered lists of key/value pairs with unique keys, the observable
behaviour of Python dicts.  `dictSet` is `d[k] = v` (replace in place or
append), `dictUpdate` is `d.update(other)`, `dictGet` is `d.get(k)`. -/

def dictGet {κ α : Type} [BEq κ] (m : List (κ × α)) (k : κ) : Option α :=
  (m.find? (fun p => p.1 == k)).map Prod.snd

def dictSet {κ α : Type} [BEq κ] (m : List (κ × α)) (k : κ) (v : α) : List (κ × α) :=
  match m with
  | [] => [(k, v)]
  | (k2, v2) :: rest => if k2 == k then (k, v) :: rest else (k2, v2) :: dictSet rest k v

def dictUpdate {κ α : Type} [BEq κ] (m other : List (κ × α)) : List (κ × α) :=
  other.foldl (fun acc p => dictSet acc p.1 p.2) m

/-! ### Snapshots (src/prdgen/phased/phases.py) -/

/-- PhaseSnapshot (src/prdgen/phased/phases.py lines 39-51).  Timestamps are
opaque clock readings modelled as Nat. -/
structure PhaseSnapshot where
  phase_number : Nat
  artifacts : List (String × ByteStr)
  content_hashes : List (String × Nat)
  created_at : Option Nat := none
  approved_at : Option Nat := none
  approved_by : Option String := none
  notes : Option String := none
deriving DecidableEq

/-- create_snapshot (src/prdgen/phased/phases.py lines 115-148).  `now` is
the current clock reading (datetime.now in the source). -/
def create_snapshot (phase_number : Nat) (artifacts_dict : List (String × ByteStr))
    (approved_by : Option String := none) (notes : Option String := none)
    (now : Nat := 0) : PhaseSnapshot :=
  { phase_number := phase_number
    artifacts := artifacts_dict
    content_hashes := artifacts_dict.map (fun p => (p.1, compute_content_hash p.2))
    created_at := some now
    approved_at := if approved_by.isSome then some now else none
    approved_by := approved_by
    notes := notes }

/-- verify_snapshot (src/prdgen/phased/phases.py lines 151-170): re-hash the
artifacts present in the snapshot and compare each against its stored digest;
false on the first missing digest or mismatch. -/
def verify_snapshot (s : PhaseSnapshot) : Bool :=
  s.artifacts.all (fun p =>
    match dictGet s.content_hashes p.1 with
    | none => false
    | some h => compute_content_hash p.2 == h)

/-- Snapshot metadata file contents (the snapshot_meta.json written by
save_snapshot_to_disk, lines 201-212 of src/prdgen/phased/phases.py).  The
JSON serialization is modelled structurally (json.dumps/loads round-trips
these fields verbatim). -/
structure SnapMeta where
  phase_number : Nat
  content_hashes : List (String × Nat)
  created_at : Option Nat := none
  approved_at : Option Nat := none
  approved_by : Option String := none
  notes : Option String := none
  artifact_names : List String
deriving DecidableEq

/-- A file on disk: either raw bytes or the structured metadata JSON. -/
inductive FsEntry where
  | bytes (b : ByteStr)
  | meta (m : SnapMeta)
deriving DecidableEq

/-- The file system: path to file contents. -/
abbrev FS := List (String × FsEntry)

/-- Filename chosen for an artifact name by save_snapshot_to_disk and
load_snapshot_from_disk (src/prdgen/phased/phases.py lines 189-196 and
240-246): the ARTIFACT_FILENAMES entry whose enum value equals the name,
else the default name.md. -/
def filenameFor (name : String) : String :=
  match ARTIFACT_FILENAMES.find? (fun p => p.1.value == name) with
  | some p => p.2
  | none => name ++ ".md"

/-- save_snapshot_to_disk (src/prdgen/phased/phases.py lines 173-215):
writes each artifact to dir/filenameFor(name) and the metadata to
dir/snapshot_meta.json; returns the updated file system. -/
def save_snapshot_to_disk (snapshot : PhaseSnapshot) (snapshot_dir : String)
    (fs : FS) : FS :=
  let fs1 := snapshot.artifacts.foldl
    (fun acc p => dictSet acc (snapshot_dir ++ "/" ++ filenameFor p.1) (FsEntry.bytes p.2)) fs
  dictSet fs1 (snapshot_dir ++ "/snapshot_meta.json")
    (FsEntry.meta
      { phase_number := snapshot.phase_number
        content_hashes := snapshot.content_hashes
        created_at := snapshot.created_at
        approved_at := snapshot.approved_at
        approved_by := snapshot.approved_by
        notes := snapshot.notes
        artifact_names := snapshot.artifacts.map Prod.fst })

/-- load_snapshot_from_disk (src/prdgen/phased/phases.py lines 218-262):
FileNotFoundError when the metadata file is absent; otherwise reads each
listed artifact file, silently skipping names whose file is missing
(the source only logs a warning for those). -/
def load_snapshot_from_disk (fs : FS) (snapshot_dir : String) :
    Except String PhaseSnapshot :=
  match dictGet fs (snapshot_dir ++ "/snapshot_meta.json") with
  | some (FsEntry.meta m) =>
      Except.ok
        { phase_number := m.phase_number
          artifacts := m.artifact_names.filterMap (fun name =>
            match dictGet fs (snapshot_dir ++ "/" ++ filenameFor name) with
            | some (FsEntry.bytes c) => some (name, c)
            | _ => none)
          content_hashes := m.content_hashes
          created_at := m.created_at
          approved_at := m.approved_at
          approved_by := m.approved_by
          notes := m.notes }
  | _ => Except.error "Snapshot metadata not found"

/-- The body of the range loop of get_prior_snapshots
(src/prdgen/phased/phases.py lines 281-288) for phases 1..k in ascending
order, accumulating `prior_artifacts.update(snap.artifacts)`. -/
def collectPrior : Nat → List (Nat × PhaseSnapshot) → Except String (List (String × ByteStr))
  | 0, _ => Except.ok []
  | k + 1, snaps =>
    match collectPrior k snaps with
    | Except.error e => Except.error e
    | Except.ok acc =>
      match dictGet snaps (k + 1) with
      | none => Except.error ("Phase " ++ toString (k + 1) ++ " snapshot required but not found.")
      | some snap =>
        if verify_snapshot snap then Except.ok (dictUpdate acc snap.artifacts)
        else Except.error ("Phase " ++ toString (k + 1) ++ " snapshot integrity check failed.")

/-- get_prior_snapshots (src/prdgen/phased/phases.py lines 265-289): collect
the artifacts of all phases strictly before phase_number, failing on the
first missing or unverifiable snapshot. -/
def get_prior_snapshots (phase_number : Nat)
    (session_snapshots : List (Nat × PhaseSnapshot)) :
    Except String (List (String × ByteStr)) :=
  collectPrior (phase_number - 1) session_snapshots

/-! ### Dict lemmas -/

section DictLemmas

variable {κ α β : Type} [BEq κ] [LawfulBEq κ]

lemma dictGet_map (f : α → β) (m : List (κ × α)) (k : κ) :
    dictGet (m.map (fun p => (p.1, f p.2))) k = (dictGet m k).map f := by
  induction m with
  | nil => rfl
  | cons p rest ih =>
      by_cases h : p.1 == k
      · simp [dictGet, List.find?_cons_of_pos, h]
      · simp only [List.map_cons]
        rw [dictGet, dictGet, List.find?_cons_of_neg _ (by simpa using h),
          List.find?_cons_of_neg _ (by simpa using h)]
        exact ih

lemma dictGet_of_mem_nodup {m : List (κ × α)} {k : κ} {v : α}
    (hnd : (m.map Prod.fst).Nodup) (hmem : (k, v) ∈ m) : dictGet m k = some v := by
  induction m with
  | nil => cases hmem
  | cons p rest ih =>
      rcases List.mem_cons.1 hmem with rfl | hmem2
      · simp [dictGet, List.find?_cons_of_pos]
      · have hknd : p.1 ∉ rest.map Prod.fst := (List.nodup_cons.1 hnd).1
        have hne : ¬(p.1 == k) := by
          intro hbeq
          exact hknd (by
            have : p.1 = k := by simpa using hbeq
            subst this
            exact List.mem_map.2 ⟨(p.1, v), hmem2, rfl⟩)
        rw [dictGet, List.find?_cons_of_neg _ (by simpa using hne)]
        exact ih (List.nodup_cons.1 hnd).2 hmem2

lemma mem_dictSet_of_mem {m : List (κ × α)} {k : κ} {v : α} (v2 : α)
    (hmem : (k, v) ∈ m) : (k, v2) ∈ dictSet m k v2 := by
  induction m with
  | nil => cases hmem
  | cons p rest ih =>
      rcases List.mem_cons.1 hmem with rfl | hmem2
      · simp [dictSet]
      · by_cases h : p.1 == k
        · simp [dictSet, h]
        · simp only [dictSet, h, if_false]
          exact List.mem_cons.2 (Or.inr (ih hmem2))

lemma dictSet_cons_pos {k2 : κ} {v2 : α} {rest : List (κ × α)} {k : κ} {v : α}
    (h : (k2 == k) = true) :
    dictSet ((k2, v2) :: rest) k v = (k, v) :: rest := by
  simp [dictSet, h]

lemma dictSet_cons_neg {k2 : κ} {v2 : α} {rest : List (κ × α)} {k : κ} {v : α}
    (h : (k2 == k) = false) :
    dictSet ((k2, v2) :: rest) k v = (k2, v2) :: dictSet rest k v := by
  simp [dictSet, h]

lemma mem_of_mem_dictSet {m : List (κ × α)} {k : κ} {v : α} {p : κ × α}
    (h : p ∈ dictSet m k v) : p ∈ m ∨ p = (k, v) := by
  induction m with
  | nil => simp [dictSet] at h; exact Or.inr h
  | cons q rest ih =>
      obtain ⟨k2, v2⟩ := q
      by_cases hq : (k2 == k) = true
      · rw [dictSet_cons_pos hq] at h
        rcases List.mem_cons.1 h with h1 | h1
        · exact Or.inr h1
        · exact Or.inl (List.mem_cons.2 (Or.inr h1))
      · rw [dictSet_cons_neg (Bool.not_eq_true _ ▸ hq)] at h
        rcases List.mem_cons.1 h with h1 | h1
        · exact Or.inl (List.mem_cons.2 (Or.inl h1))
        · rcases ih h1 with h2 | h2
          · exact Or.inl (List.mem_cons.2 (Or.inr h2))
          · exact Or.inr h2

lemma mem_of_mem_dictUpdate {m other : List (κ × α)} {p : κ × α}
    (h : p ∈ dictUpdate m other) : p ∈ m ∨ p ∈ other := by
  induction other generalizing m with
  | nil => exact Or.inl h
  | cons q rest ih =>
      rcases ih (by simpa [dictUpdate] using h) with h2 | h2
      · rcases mem_of_mem_dictSet h2 with h3 | h3
        · exact Or.inl h3
        · exact Or.inr (by simp [h3])
      · exact Or.inr (List.mem_cons.2 (Or.inr h2))

lemma key_mem_dictSet (m : List (κ × α)) (k : κ) (v : α) {k2 : κ}
    (h : (∃ v2, (k2, v2) ∈ m) ∨ k2 = k) : ∃ v2, (k2, v2) ∈ dictSet m k v := by
  induction m with
  | nil =>
      rcases h with ⟨v2, hv⟩ | rfl
      · cases hv
      · exact ⟨v, by simp [dictSet]⟩
  | cons q rest ih =>
      by_cases hq : q.1 == k
      · have hqk : q.1 = k := by simpa using hq
        simp only [dictSet, hq, if_true]
        rcases h with ⟨v2, hv⟩ | rfl
        · rcases List.mem_cons.1 hv with rfl | hv2
          · exact ⟨v, by rw [← hqk]; simp⟩
          · exact ⟨v2, by simp [hv2]⟩
        · exact ⟨v, by simp⟩
      · simp only [dictSet, hq, if_false]
        rcases h with ⟨v2, hv⟩ | rfl
        · rcases List.mem_cons.1 hv with rfl | hv2
          · exact ⟨v2, by simp⟩
          · obtain ⟨v3, hv3⟩ := ih (Or.inl ⟨v2, hv2⟩)
            exact ⟨v3, by simp [hv3]⟩
        · obtain ⟨v3, hv3⟩ := ih (Or.inr rfl)
          exact ⟨v3, by simp [hv3]⟩

lemma key_mem_dictUpdate_left {m other : List (κ × α)} {k : κ}
    (h : ∃ v, (k, v) ∈ m) : ∃ v, (k, v) ∈ dictUpdate m other := by
  induction other generalizing m with
  | nil => exact h
  | cons q rest ih =>
      exact ih (key_mem_dictSet m q.1 q.2 (Or.inl h))

lemma key_mem_dictUpdate_right {m other : List (κ × α)} {k : κ}
    (h : ∃ v, (k, v) ∈ other) : ∃ v, (k, v) ∈ dictUpdate m other := by
  induction other generalizing m with
  | nil => obtain ⟨v, hv⟩ := h; cases hv
  | cons q rest ih =>
      obtain ⟨v, hv⟩ := h
      rcases List.mem_cons.1 hv with hv1 | hv2
      · rw [show k = q.1 from congrArg Prod.fst hv1]
        show ∃ v, (q.1, v) ∈ dictUpdate (dictSet m q.1 q.2) rest
        exact key_mem_dictUpdate_left (key_mem_dictSet m q.1 q.2 (Or.inr rfl))
      · exact ih ⟨v, hv2⟩

end DictLemmas

/-! ### C2: snapshot round-trip and tamper detection -/

/-- C2.  For every artifact map A (unique names, as in a Python dict),
verify(createSnapshot(phaseNumber, A)) is true; and mutating one artifact of
the created snapshot — replacing the byte at any position i of its content by
a different byte — makes verify false whenever the mutated content's SHA-256
digest differs from the original's (with the source's cryptographic hash, a
single-byte change that preserved the digest would be a SHA-256 collision). -/
theorem claim_C2_snapshot_roundtrip_and_tamper :
    (∀ (pn : Nat) (A : List (String × ByteStr)) (ab : Option String)
        (nt : Option String) (now : Nat), (A.map Prod.fst).Nodup →
      verify_snapshot (create_snapshot pn A ab nt now) = true) ∧
    (∀ (pn : Nat) (A : List (String × ByteStr)) (ab : Option String)
        (nt : Option String) (now : Nat) (n : String) (c : ByteStr)
        (i : Nat) (b : Nat), (A.map Prod.fst).Nodup → (n, c) ∈ A →
      i < c.length → b ≠ c.getD i 0 →
      compute_content_hash (c.set i b) ≠ compute_content_hash c →
      verify_snapshot
        { create_snapshot pn A ab nt now with
          artifacts := dictSet A n (c.set i b) } = false) := by
  constructor
  · intro pn A ab nt now hnd
    rw [verify_snapshot, List.all_eq_true]
    intro p hp
    have hget : dictGet (create_snapshot pn A ab nt now).content_hashes p.1 =
        some (compute_content_hash p.2) := by
      show dictGet (A.map (fun q => (q.1, compute_content_hash q.2))) p.1 = _
      rw [dictGet_map, dictGet_of_mem_nodup hnd (by exact hp)]
      rfl
    simp only [create_snapshot] at hget ⊢
    rw [hget]
    simp
  · intro pn A ab nt now n c i b hnd hmem hi hb hhash
    have hmut : (n, c.set i b) ∈ dictSet A n (c.set i b) :=
      mem_dictSet_of_mem _ hmem
    rw [Bool.eq_false_iff]
    intro hall
    rw [verify_snapshot, List.all_eq_true] at hall
    have := hall (n, c.set i b) hmut
    have hget : dictGet (A.map (fun q => (q.1, compute_content_hash q.2))) n =
        some (compute_content_hash c) := by
      rw [dictGet_map, dictGet_of_mem_nodup hnd hmem]
      rfl
    simp only [create_snapshot] at this
    rw [hget] at this
    simp only [beq_iff_eq] at this
    exact hhash (by simpa using this)

/-- Witness for C2: the concrete one-artifact map with content bytes 1,2,3,
mutated at index 2 to byte 4; the digest inequality is computed. -/
theorem claim_C2_snapshot_roundtrip_and_tamper_witness :
    verify_snapshot (create_snapshot 1 [("prd", [1, 2, 3])] none none 0) = true ∧
    verify_snapshot
      { create_snapshot 1 [("prd", [1, 2, 3])] none none 0 with
        artifacts := dictSet [("prd", [1, 2, 3])] "prd" ([1, 2, 3].set 2 4) } = false :=
  ⟨claim_C2_snapshot_roundtrip_and_tamper.1 1 [("prd", [1, 2, 3])] none none 0 (by decide),
   claim_C2_snapshot_roundtrip_and_tamper.2 1 [("prd", [1, 2, 3])] none none 0
     "prd" [1, 2, 3] 2 4 (by decide) (by decide) (by decide) (by decide) (by decide)⟩


/-! ### C3: prior-phase artifact collection is all-or-nothing -/

lemma collectPrior_ok_verified {snaps : List (Nat × PhaseSnapshot)} :
    ∀ k m, collectPrior k snaps = Except.ok m →
      ∀ j, 1 ≤ j → j ≤ k → ∃ s, dictGet snaps j = some s ∧ verify_snapshot s = true := by
  intro k
  induction k with
  | zero => intro m _ j h1 h2; omega
  | succ k ih =>
      intro m hok j h1 h2
      cases hacc : collectPrior k snaps with
      | error e => simp only [collectPrior, hacc] at hok; cases hok
      | ok acc =>
          simp only [collectPrior, hacc] at hok
          cases hsnap : dictGet snaps (k + 1) with
          | none => simp only [hsnap] at hok; cases hok
          | some snap =>
              simp only [hsnap] at hok
              by_cases hv : verify_snapshot snap
              · rcases Nat.lt_succ_iff_lt_or_eq.1 (Nat.lt_succ_of_le h2) with hj | rfl
                · exact ih acc hacc j h1 (by omega)
                · exact ⟨snap, hsnap, hv⟩
              · rw [if_neg hv] at hok; cases hok

lemma collectPrior_complete {snaps : List (Nat × PhaseSnapshot)} :
    ∀ k m, collectPrior k snaps = Except.ok m →
      ∀ j s, 1 ≤ j → j ≤ k → dictGet snaps j = some s →
        ∀ p ∈ s.artifacts, ∃ c, (p.1, c) ∈ m := by
  intro k
  induction k with
  | zero => intro m _ j s h1 h2; omega
  | succ k ih =>
      intro m hok j s h1 h2 hget p hp
      cases hacc : collectPrior k snaps with
      | error e => simp only [collectPrior, hacc] at hok; cases hok
      | ok acc =>
          simp only [collectPrior, hacc] at hok
          cases hsnap : dictGet snaps (k + 1) with
          | none => simp only [hsnap] at hok; cases hok
          | some snap =>
              simp only [hsnap] at hok
              by_cases hv : verify_snapshot snap
              · rw [if_pos hv] at hok
                cases hok
                rcases Nat.lt_succ_iff_lt_or_eq.1 (Nat.lt_succ_of_le h2) with hj | rfl
                · obtain ⟨c, hc⟩ := ih acc hacc j s h1 (by omega) hget p hp
                  exact key_mem_dictUpdate_left ⟨c, hc⟩
                · have hs : s = snap := by
                    rw [hget] at hsnap; exact Option.some_injective _ hsnap
                  subst hs
                  exact key_mem_dictUpdate_right ⟨p.2, by simpa using hp⟩
              · rw [if_neg hv] at hok; cases hok

lemma collectPrior_sound {snaps : List (Nat × PhaseSnapshot)} :
    ∀ k m, collectPrior k snaps = Except.ok m →
      ∀ p ∈ m, ∃ j s, 1 ≤ j ∧ j ≤ k ∧ dictGet snaps j = some s ∧ p ∈ s.artifacts := by
  intro k
  induction k with
  | zero =>
      intro m hok p hp
      cases hok
      cases hp
  | succ k ih =>
      intro m hok p hp
      cases hacc : collectPrior k snaps with
      | error e => simp only [collectPrior, hacc] at hok; cases hok
      | ok acc =>
          simp only [collectPrior, hacc] at hok
          cases hsnap : dictGet snaps (k + 1) with
          | none => simp only [hsnap] at hok; cases hok
          | some snap =>
              simp only [hsnap] at hok
              by_cases hv : verify_snapshot snap
              · rw [if_pos hv] at hok
                cases hok
                rcases mem_of_mem_dictUpdate hp with hmem | hmem
                · obtain ⟨j, s, h1, h2, hget, hps⟩ := ih acc hacc p hmem
                  exact ⟨j, s, h1, by omega, hget, hps⟩
                · exact ⟨k + 1, snap, by omega, le_refl _, hsnap, hmem⟩
              · rw [if_neg hv] at hok; cases hok

lemma collectPrior_error {snaps : List (Nat × PhaseSnapshot)} :
    ∀ k, (∃ j, 1 ≤ j ∧ j ≤ k ∧ (dictGet snaps j = none ∨
        ∃ s, dictGet snaps j = some s ∧ verify_snapshot s = false)) →
      ∃ e, collectPrior k snaps = Except.error e := by
  intro k
  induction k with
  | zero => rintro ⟨j, h1, h2, _⟩; omega
  | succ k ih =>
      rintro ⟨j, h1, h2, hbad⟩
      cases hacc : collectPrior k snaps with
      | error e => exact ⟨e, by simp only [collectPrior, hacc]⟩
      | ok acc =>
          rcases Nat.lt_succ_iff_lt_or_eq.1 (Nat.lt_succ_of_le h2) with hj | rfl
          · obtain ⟨e, he⟩ := ih ⟨j, h1, by omega, hbad⟩
            rw [he] at hacc; cases hacc
          · rcases hbad with hnone | ⟨s, hgets, hvf⟩
            · refine ⟨"Phase " ++ toString (k + 1) ++ " snapshot required but not found.", ?_⟩
              simp only [collectPrior, hacc, hnone]
            · refine ⟨"Phase " ++ toString (k + 1) ++ " snapshot integrity check failed.", ?_⟩
              simp only [collectPrior, hacc, hgets, hvf]
              rw [if_neg (by simp [hvf])]

/-- C3.  getPriorArtifacts(N, snapshots) (get_prior_snapshots in
src/prdgen/phased/phases.py) returns successfully only when every phase
strictly before N has a snapshot that passes verify; on success the result
contains an entry for every artifact name of every prior snapshot (never a
partial subset) and nothing but entries drawn from prior snapshots; and if
any prior phase snapshot is missing or fails verification it raises
(returns an error). -/
theorem claim_C3_prior_artifacts_all_or_nothing (pn : Nat)
    (snaps : List (Nat × PhaseSnapshot)) :
    (∀ m, get_prior_snapshots pn snaps = Except.ok m →
      (∀ j, 1 ≤ j → j < pn → ∃ s, dictGet snaps j = some s ∧ verify_snapshot s = true) ∧
      (∀ j s, 1 ≤ j → j < pn → dictGet snaps j = some s →
        ∀ p ∈ s.artifacts, ∃ c, (p.1, c) ∈ m) ∧
      (∀ p ∈ m, ∃ j s, 1 ≤ j ∧ j < pn ∧ dictGet snaps j = some s ∧ p ∈ s.artifacts)) ∧
    ((∃ j, 1 ≤ j ∧ j < pn ∧ (dictGet snaps j = none ∨
        ∃ s, dictGet snaps j = some s ∧ verify_snapshot s = false)) →
      ∃ e, get_prior_snapshots pn snaps = Except.error e) := by
  constructor
  · intro m hok
    refine ⟨?_, ?_, ?_⟩
    · intro j h1 h2
      exact collectPrior_ok_verified (pn - 1) m hok j h1 (by omega)
    · intro j s h1 h2 hget p hp
      exact collectPrior_complete (pn - 1) m hok j s h1 (by omega) hget p hp
    · intro p hp
      obtain ⟨j, s, hj1, hj2, hget, hps⟩ := collectPrior_sound (pn - 1) m hok p hp
      exact ⟨j, s, hj1, by omega, hget, hps⟩
  · rintro ⟨j, h1, h2, hbad⟩
    exact collectPrior_error (pn - 1) ⟨j, h1, by omega, hbad⟩

/-- Witness for C3: with phase 1 holding a freshly created (hence verifying)
snapshot, collecting prior artifacts for phase 2 succeeds, and the theorem
yields the verified phase-1 snapshot. -/
theorem claim_C3_prior_artifacts_all_or_nothing_witness :
    ∃ s, dictGet [(1, create_snapshot 1 [("prd", [1])] none none 0)] 1 = some s ∧
      verify_snapshot s = true := by
  have h := (claim_C3_prior_artifacts_all_or_nothing 2
      [(1, create_snapshot 1 [("prd", [1])] none none 0)]).1
    [("prd", [1])] (by rfl)
  exact h.1 1 (by decide) (by decide)


/-! ### C10: loading a snapshot with a missing artifact file -/

/-- C10.  load_snapshot_from_disk on a directory whose metadata lists an
artifact name whose content file is missing returns successfully (no error),
silently omits that artifact from the loaded snapshot, keeps the full
recorded digest map, and — whenever the files that are present hash to their
recorded digests — the loaded snapshot still passes verify_snapshot, so the
deletion is not detected as an integrity failure (verify only checks the
artifacts present; get_prior_snapshots accepts any verifying snapshot as
prior context, per C3). -/
theorem claim_C10_missing_file_silently_omitted (fs : FS) (dir : String)
    (m : SnapMeta) (name : String)
    (hmeta : dictGet fs (dir ++ "/snapshot_meta.json") = some (FsEntry.meta m))
    (hname : name ∈ m.artifact_names)
    (hmiss : dictGet fs (dir ++ "/" ++ filenameFor name) = none) :
    ∃ snap, load_snapshot_from_disk fs dir = Except.ok snap ∧
      (∀ c, (name, c) ∉ snap.artifacts) ∧
      snap.content_hashes = m.content_hashes ∧
      ((∀ p ∈ snap.artifacts,
          dictGet m.content_hashes p.1 = some (compute_content_hash p.2)) →
        verify_snapshot snap = true) := by
  refine ⟨_, by rw [load_snapshot_from_disk, hmeta], ?_, rfl, ?_⟩
  · intro c hc
    rcases List.mem_filterMap.1 hc with ⟨n2, hn2, hf⟩
    cases hget : dictGet fs (dir ++ "/" ++ filenameFor n2) with
    | none => simp only [hget] at hf; cases hf
    | some entry =>
        cases entry with
        | bytes c2 =>
            simp only [hget] at hf
            have hn2name : n2 = name := congrArg Prod.fst (Option.some_injective _ hf)
            rw [hn2name] at hget
            rw [hget] at hmiss
            cases hmiss
        | meta mm => simp only [hget] at hf; cases hf
  · intro hhash
    rw [verify_snapshot, List.all_eq_true]
    intro p hp
    have := hhash p hp
    simp only [this]
    simp

/-- Concrete metadata for the C10 witness: two recorded artifacts with their
digests; only the capabilities file will exist on disk. -/
def metaC10 : SnapMeta :=
  { phase_number := 1
    content_hashes := [("prd", 0), ("capabilities", compute_content_hash [99])]
    artifact_names := ["prd", "capabilities"] }

/-- Concrete file system for the C10 witness: the metadata file and the
capabilities artifact file; the prd artifact file has been deleted. -/
def fsC10 : FS :=
  [("snap/snapshot_meta.json", FsEntry.meta metaC10),
   ("snap/capabilities.md", FsEntry.bytes [99])]

/-- The snapshot that loading the C10 directory produces. -/
def snapC10 : PhaseSnapshot :=
  { phase_number := 1
    artifacts := [("capabilities", [99])]
    content_hashes := metaC10.content_hashes }

/-- Witness for C10: loading the concrete directory succeeds, omits the
deleted prd artifact, and the loaded snapshot still verifies. -/
theorem claim_C10_missing_file_silently_omitted_witness :
    ∃ snap, load_snapshot_from_disk fsC10 "snap" = Except.ok snap ∧
      (∀ c, ("prd", c) ∉ snap.artifacts) ∧
      snap.content_hashes = metaC10.content_hashes ∧
      verify_snapshot snap = true := by
  obtain ⟨snap, hok, hnot, hh, himp⟩ :=
    claim_C10_missing_file_silently_omitted fsC10 "snap" metaC10 "prd"
      (by rfl) (by decide) (by rfl)
  refine ⟨snap, hok, hnot, hh, himp ?_⟩
  have hs : snap = snapC10 := by
    have h2 : load_snapshot_from_disk fsC10 "snap" = Except.ok snapC10 := by rfl
    rw [hok] at h2
    cases h2
    rfl
  rw [hs]
  intro p hp
  rcases List.mem_cons.1 hp with rfl | hp2
  · rfl
  · cases hp2

/-! ### C9: editable artifacts rule -/

/-- FlowType (src/prdgen/phased/flows.py lines 39-41). -/
inductive FlowType where
  | greenfield
  | modernization
deriving DecidableEq

/-- PhasedFlowRunner.get_editable_artifacts (src/prdgen/phased/flows.py
lines 298-310): capabilities for modernization at phase 1, then prd at
phase 1 (the source comment claims PRD is always editable, but the append is
guarded by phase_number == 1). -/
def get_editable_artifacts (phase_number : Nat) (flow_type : FlowType) : List String :=
  (if phase_number = 1 ∧ flow_type = FlowType.modernization
   then [capabilities.value] else []) ++
  (if phase_number = 1 then [prd.value] else [])

/-- C9 is false as stated: at any phase other than 1 the editable set is
empty, so the PRD (always editable per the claim) is not in it. -/
theorem claim_C9_counterexample :
    get_editable_artifacts 2 FlowType.greenfield = [] ∧
    get_editable_artifacts 2 FlowType.modernization = [] ∧
    get_editable_artifacts 3 FlowType.greenfield = [] ∧
    get_editable_artifacts 3 FlowType.modernization = [] := by
  refine ⟨rfl, rfl, rfl, rfl⟩

/-- C9 amended.  getEditableArtifacts(phaseNumber, flowVariant): the PRD is
in the editable set exactly when the phase number is 1 (for every flow
variant); capabilities is in it exactly when the flow variant is
modernization and the phase number is 1; no other artifact type is ever in
it. -/
theorem claim_C9_editable_rule (pn : Nat) (fv : FlowType) :
    (prd.value ∈ get_editable_artifacts pn fv ↔ pn = 1) ∧
    (capabilities.value ∈ get_editable_artifacts pn fv ↔
      pn = 1 ∧ fv = FlowType.modernization) ∧
    (∀ x ∈ get_editable_artifacts pn fv, x = prd.value ∨ x = capabilities.value) := by
  by_cases h1 : pn = 1
  · subst h1
    cases fv <;> refine ⟨by simp [get_editable_artifacts, value], ?_, ?_⟩ <;>
      simp [get_editable_artifacts, value]
  · refine ⟨?_, ?_, ?_⟩ <;>
      simp [get_editable_artifacts, h1]

/-- Witness for C9 amended, at phase 1 under the modernization variant. -/
theorem claim_C9_editable_rule_witness :
    (prd.value ∈ get_editable_artifacts 1 FlowType.modernization ↔ 1 = 1) ∧
    (capabilities.value ∈ get_editable_artifacts 1 FlowType.modernization ↔
      1 = 1 ∧ FlowType.modernization = FlowType.modernization) ∧
    (∀ x ∈ get_editable_artifacts 1 FlowType.modernization,
      x = prd.value ∨ x = capabilities.value) :=
  claim_C9_editable_rule 1 FlowType.modernization


/-! ### C8: partial row updates (src/backend/app/store/phase_store.py)

update_session (lines 68-81), update_phase_gate (lines 182-195) and
update_artifact_progress (lines 234-248) all build
`SET k1 = ?, k2 = ?, ...` from exactly the kwargs keys and run a single
UPDATE.  A row is a list of column/value pairs; applying the patch maps each
column to the patch value when the column is named in the patch.  A patch key
that is not a column of the table would be an SQL error; the claims below
only concern columns of the row.  update_session first injects
`kwargs["updated_at"] = _now()` into the patch (line 71). -/

/-- An SQL cell value. -/
inductive Value where
  | s (v : String)
  | i (v : Int)
  | b (v : Bool)
  | null
deriving DecidableEq

/-- A table row: column name to value. -/
abbrev Row := List (String × Value)

/-- Effect of `UPDATE t SET ...` with the SET clause built from the patch:
each column named in the patch takes the patch value, all others are kept. -/
def applyPatch (row : Row) (patch : List (String × Value)) : Row :=
  row.map (fun p =>
    match dictGet patch p.1 with
    | some v => (p.1, v)
    | none => p)

/-- PhaseStore.update_session on the matched row: the patch is the kwargs
dict after the source injects updated_at = _now() into it. -/
def update_session_row (row : Row) (patch : List (String × Value)) (now : Value) : Row :=
  applyPatch row (dictSet patch "updated_at" now)

/-- PhaseStore.update_phase_gate on the matched row. -/
def update_phase_gate_row (row : Row) (patch : List (String × Value)) : Row :=
  applyPatch row patch

/-- PhaseStore.update_artifact_progress on the matched row. -/
def update_artifact_progress_row (row : Row) (patch : List (String × Value)) : Row :=
  applyPatch row patch

lemma dictGet_cons {κ α : Type} [BEq κ] (p : κ × α) (rest : List (κ × α)) (k : κ) :
    dictGet (p :: rest) k = if p.1 == k then some p.2 else dictGet rest k := by
  by_cases h : (p.1 == k) = true
  · simp [dictGet, List.find?, h]
  · simp only [Bool.not_eq_true] at h
    simp [dictGet, List.find?, h]

lemma dictGet_applyPatch (row : Row) (patch : List (String × Value)) (f : String) :
    dictGet (applyPatch row patch) f =
      (dictGet row f).map (fun v => (dictGet patch f).getD v) := by
  induction row with
  | nil => rfl
  | cons p rest ih =>
      cases hpatch : dictGet patch p.1 with
      | none =>
          simp only [applyPatch, List.map_cons, hpatch]
          rw [dictGet_cons, dictGet_cons]
          by_cases h : (p.1 == f) = true
          · have hpf : p.1 = f := by simpa using h
            rw [hpf] at hpatch
            simp [h, hpatch]
          · simp only [Bool.not_eq_true] at h
            simp only [h, if_false]
            exact ih
      | some v =>
          simp only [applyPatch, List.map_cons, hpatch]
          rw [dictGet_cons, dictGet_cons]
          by_cases h : (p.1 == f) = true
          · have hpf : p.1 = f := by simpa using h
            rw [hpf] at hpatch
            simp [h, hpatch]
          · simp only [Bool.not_eq_true] at h
            simp only [h, if_false]
            exact ih

lemma dictGet_none_of_not_mem {κ α : Type} [BEq κ] [LawfulBEq κ]
    {m : List (κ × α)} {k : κ} (h : ∀ v, (k, v) ∉ m) : dictGet m k = none := by
  cases hfind : m.find? (fun q => q.1 == k) with
  | none => simp [dictGet, hfind]
  | some p =>
      have hmem := List.mem_of_find?_eq_some hfind
      have hbeq : (p.1 == k) = true := by
        have := List.find?_some hfind
        simpa using this
      have hpk : p.1 = k := by simpa using hbeq
      refine absurd ?_ (h p.2)
      rw [← hpk]
      exact hmem

/-- C8 is false as stated for updateSession: the patch names only status
(its dict holds nothing under updated_at), yet the updated_at column changes
from t0 to t1 (the source injects the current timestamp into every session
patch). -/
theorem claim_C8_counterexample :
    dictGet [("status", Value.s "phase_1")] "updated_at" = (none : Option Value) ∧
    dictGet [("id", Value.s "s1"), ("status", Value.s "intake"), ("updated_at", Value.s "t0")]
        "updated_at" = some (Value.s "t0") ∧
    dictGet (update_session_row
        [("id", Value.s "s1"), ("status", Value.s "intake"), ("updated_at", Value.s "t0")]
        [("status", Value.s "phase_1")] (Value.s "t1")) "updated_at" =
      some (Value.s "t1") ∧
    (Value.s "t1" == Value.s "t0") = false := by
  refine ⟨by rfl, by rfl, by rfl, by decide⟩

/-- C8 amended.  updatePhaseGate and updateArtifactProgress modify only the
columns named in the patch: every other column keeps exactly its previous
value, and every patched column that exists in the row takes the patch
value.  updateSession has the same frame property for every column other
than updated_at, but always refreshes updated_at to the current timestamp
(even when the patch does not name it). -/
theorem claim_C8_patch_frame (row : Row) (patch : List (String × Value)) (now : Value) :
    (∀ f, (∀ v, (f, v) ∉ patch) →
      dictGet (update_phase_gate_row row patch) f = dictGet row f ∧
      dictGet (update_artifact_progress_row row patch) f = dictGet row f) ∧
    (∀ f v w, dictGet patch f = some v → dictGet row f = some w →
      dictGet (update_phase_gate_row row patch) f = some v ∧
      dictGet (update_artifact_progress_row row patch) f = some v) ∧
    (∀ f, (∀ v, (f, v) ∉ patch) → f ≠ "updated_at" →
      dictGet (update_session_row row patch now) f = dictGet row f) ∧
    (∀ w, dictGet row "updated_at" = some w →
      dictGet (update_session_row row patch now) "updated_at" = some now) := by
  have hupd : dictGet (dictSet patch "updated_at" now) "updated_at" = some now := by
    induction patch with
    | nil => rfl
    | cons q rest ih =>
        obtain ⟨k2, v2⟩ := q
        by_cases hq : (k2 == "updated_at") = true
        · rw [dictSet_cons_pos hq, dictGet_cons]
          simp
        · have hqf : (k2 == "updated_at") = false := Bool.not_eq_true _ ▸ hq
          rw [dictSet_cons_neg hqf, dictGet_cons]
          simp only [hqf, if_false]
          exact ih
  refine ⟨?_, ?_, ?_, ?_⟩
  · intro f hf
    have hnone : dictGet patch f = none := dictGet_none_of_not_mem hf
    refine ⟨?_, ?_⟩ <;>
      · simp only [update_phase_gate_row, update_artifact_progress_row,
          dictGet_applyPatch, hnone]
        cases dictGet row f <;> rfl
  · intro f v w hv hw
    refine ⟨?_, ?_⟩ <;>
      · simp only [update_phase_gate_row, update_artifact_progress_row,
          dictGet_applyPatch, hv, hw]
        rfl
  · intro f hf hne
    have hnone : dictGet (dictSet patch "updated_at" now) f = none := by
      apply dictGet_none_of_not_mem
      intro v hv
      rcases mem_of_mem_dictSet hv with h | h
      · exact hf v h
      · exact hne (congrArg Prod.fst h)
    simp only [update_session_row, dictGet_applyPatch, hnone]
    cases dictGet row f <;> rfl
  · intro w hw
    simp only [update_session_row, dictGet_applyPatch, hupd, hw]
    rfl

/-- Witness for C8 amended at a concrete gate row and patch. -/
theorem claim_C8_patch_frame_witness :
    dictGet (update_phase_gate_row
        [("status", Value.s "review"), ("rejection_count", Value.i 0)]
        [("status", Value.s "approved")]) "rejection_count" =
      dictGet [("status", Value.s "review"), ("rejection_count", Value.i 0)]
        "rejection_count" ∧
    dictGet (update_artifact_progress_row
        [("status", Value.s "review"), ("rejection_count", Value.i 0)]
        [("status", Value.s "approved")]) "rejection_count" =
      dictGet [("status", Value.s "review"), ("rejection_count", Value.i 0)]
        "rejection_count" :=
  (claim_C8_patch_frame
      [("status", Value.s "review"), ("rejection_count", Value.i 0)]
      [("status", Value.s "approved")] Value.null).1 "rejection_count"
    (by
      intro v hv
      have h := List.mem_singleton.1 hv
      have h2 : "rejection_count" = "status" := congrArg Prod.fst h
      exact absurd h2 (by decide))



/-! ### Phase definitions (src/prdgen/phased/phases.py lines 30-99) -/

/-- PhaseDefinition (src/prdgen/phased/phases.py lines 30-36). -/
structure PhaseDefinition where
  number : Nat
  name : String
  label : String
  artifacts : List ArtifactType
  requires_phase : Option Nat := none
deriving DecidableEq

/-- Phase 1 of PHASE_DEFINITIONS (src/prdgen/phased/phases.py lines 56-67). -/
def phaseDef1 : PhaseDefinition :=
  { number := 1
    name := "Foundation"
    label := "Context Summary + PRD + Capabilities"
    artifacts := [context_summary, corpus_summary, prd, capabilities]
    requires_phase := none }

/-- Phase 2 of PHASE_DEFINITIONS (lines 68-79); lists ArtifactType.ROADMAP
as written in the source. -/
def phaseDef2 : PhaseDefinition :=
  { number := 2
    name := "Planning"
    label := "Epics + Features + Roadmap"
    artifacts := [capability_cards, epics, features, roadmap]
    requires_phase := some 1 }

/-- Phase 3 of PHASE_DEFINITIONS (lines 80-90). -/
def phaseDef3 : PhaseDefinition :=
  { number := 3
    name := "Detail"
    label := "User Stories + Architecture"
    artifacts := [user_stories, technical_architecture, lean_canvas]
    requires_phase := some 2 }

/-- PHASE_DEFINITIONS (src/prdgen/phased/phases.py lines 55-91), the three
HITL gates. -/
def PHASE_DEFINITIONS : List PhaseDefinition := [phaseDef1, phaseDef2, phaseDef3]

/-- get_phase_definition (src/prdgen/phased/phases.py lines 94-99): ValueError
for a number other than 1, 2, 3 — modelled as none. -/
def get_phase_definition (pn : Nat) : Option PhaseDefinition :=
  PHASE_DEFINITIONS.find? (fun pd => pd.number == pn)

/-- Filename for an artifact type:
`ARTIFACT_FILENAMES.get(artifact_type, f"(artifact_type.value).md")` as used
by PhaseService._run_phase_generation. -/
def filenameForType (a : ArtifactType) : String :=
  match ARTIFACT_FILENAMES.find? (fun p => p.1 == a) with
  | some p => p.2
  | none => a.value ++ ".md"

/-- Remove a key (dict.pop(k, None) / cache eviction). -/
def dictRemove {κ α : Type} [BEq κ] (m : List (κ × α)) (k : κ) : List (κ × α) :=
  m.filter (fun p => !(p.1 == k))

/-! ### The workflow orchestrator and service

PhasedFlowRunner (src/prdgen/phased/flows.py) + PhaseService
(src/backend/app/services/phase_service.py) + the PhaseStore rows they touch,
for one session.  The SQLite rows are modelled with their claim-relevant
columns; timestamps are clock readings (a Nat counter in the state).  Audit
log entries are recorded as (event_type, phase_number).  Errors model Python
exceptions propagating out of the called operation; the claims below concern
either success paths or errors raised before any write. -/

/-- PhaseStatus (src/prdgen/phased/phases.py lines 22-27). -/
inductive PhaseStatus where
  | pending
  | generating
  | review
  | approved
  | rejected
deriving DecidableEq

/-- A phase_gates row (schema lines 450-466 of phase_store.py). -/
structure GateRow where
  phase_number : Nat
  phase_name : String
  status : String
  overall_progress : Nat := 0
  started_at : Option Nat := none
  generated_at : Option Nat := none
  completed_at : Option Nat := none
  approved_by : Option String := none
  approval_notes : Option String := none
  rejection_feedback : Option String := none
  rejection_count : Nat := 0
  snapshot_dir : Option String := none
deriving DecidableEq

/-- A generation_progress row (schema lines 468-481). -/
structure ProgressRow where
  artifact_type : String
  status : String := "pending"
  progress_pct : Nat := 0
  message : Option String := none
deriving DecidableEq

/-- A phase_artifacts row (schema lines 483-493). -/
structure ArtRow where
  artifact_type : String
  content_hash : Nat
  file_path : String
  char_count : Nat
  was_edited : Bool := false
deriving DecidableEq

/-- An artifact_edits row (schema lines 495-504); the referenced
phase_artifact is identified by its (phase number, artifact type) key. -/
structure EditRow where
  phase_number : Nat
  artifact_type : String
  original_hash : Nat
  edited_hash : Nat
  original_file_path : String
  edited_by : String
deriving DecidableEq

/-- PhasedFlowRunner state (src/prdgen/phased/flows.py lines 67-122).
generator_cache is the ArtifactCache of self._generator (none before the
first run_phase, as self._generator is then None); raw_transcript is the
questionnaire transcript bytes. -/
structure RunnerState where
  flow_type : FlowType
  snapshot_base_dir : String
  raw_transcript : ByteStr := []
  snapshots : List (Nat × PhaseSnapshot) := []
  phase_statuses : List (Nat × PhaseStatus) :=
    [(1, PhaseStatus.pending), (2, PhaseStatus.pending), (3, PhaseStatus.pending)]
  phase_artifacts : List (Nat × List (ArtifactType × ByteStr)) := []
  phase_feedback : List (Nat × String) := []
  generator_cache : Option (List (ArtifactType × ByteStr)) := none
deriving DecidableEq

/-- The state of one session of the backend service: the session row, its
store rows, the on-disk outputs, and the active runner.  The session's base
output directory is the constant "out"; the snapshot base is
"out/snapshots" (base_output_dir / session_id in the source). -/
structure SvcState where
  session_exists : Bool := false
  flow_type : FlowType := FlowType.greenfield
  session_status : String := "intake"
  session_updated_at : Nat := 0
  gates : List (Nat × GateRow) := []
  progress : List ((Nat × String) × ProgressRow) := []
  artifacts : List ((Nat × String) × ArtRow) := []
  edits : List EditRow := []
  audit : List (String × Option Nat) := []
  fs : FS := []
  runner : Option RunnerState := none
  clock : Nat := 0
deriving DecidableEq

/-- UPDATE phase_gates ... WHERE session_id AND phase_number: applies the
field update to the matching row, no-op when no row matches. -/
def updateGate (gates : List (Nat × GateRow)) (pn : Nat) (f : GateRow → GateRow) :
    List (Nat × GateRow) :=
  match dictGet gates pn with
  | some g => dictSet gates pn (f g)
  | none => gates

/-- init_generation_progress (phase_store.py lines 220-232): INSERT OR IGNORE
one pending row per artifact type. -/
def initProgress (pn : Nat) : List String → List ((Nat × String) × ProgressRow) →
    List ((Nat × String) × ProgressRow)
  | [], prog => prog
  | t :: rest, prog =>
      initProgress pn rest
        (if (dictGet prog (pn, t)).isSome then prog
         else prog ++ [((pn, t), { artifact_type := t })])

/-- PhaseService.create_session (phase_service.py lines 32-57) restricted to
the modelled fields (store row creation and audit logging). -/
def create_session (fv : FlowType) (s : SvcState) : SvcState :=
  { s with
    session_exists := true
    flow_type := fv
    session_status := "intake"
    session_updated_at := s.clock
    audit := s.audit ++ [("session_created", none)]
    clock := s.clock + 1 }

/-- PhaseService.start_phase (phase_service.py lines 119-188), synchronous
part.  Checks the session, the phase number, and that the prior phase's gate
is approved; then create_phase_gate (phase_store.py lines 166-180) executes a
plain INSERT against UNIQUE(session_id, phase_number) (schema line 465), so
an existing gate row for this phase raises sqlite3.IntegrityError.  On
success: a generating gate row, pending progress rows, session status
phase_N, and an audit event; the spawned background task is the separate
run_generation operation. -/
def start_phase (pn : Nat) (s : SvcState) : Except String SvcState :=
  if s.session_exists = false then Except.error "Session not found"
  else
    match get_phase_definition pn with
    | none => Except.error ("Invalid phase number: " ++ toString pn)
    | some pd =>
      let priorOk : Bool :=
        match pd.requires_phase with
        | none => true
        | some req =>
            match dictGet s.gates req with
            | some g => g.status == "approved"
            | none => false
      if priorOk = false then
        Except.error ("Phase " ++ toString pn ++ " requires Phase " ++
          toString (pd.requires_phase.getD 0) ++ " to be approved first.")
      else if (dictGet s.gates pn).isSome then
        Except.error "IntegrityError: UNIQUE constraint failed: phase_gates.session_id, phase_gates.phase_number"
      else
        Except.ok
          { s with
            gates := dictSet s.gates pn
              { phase_number := pn, phase_name := pd.name, status := "generating",
                started_at := some s.clock }
            progress := initProgress pn (pd.artifacts.map ArtifactType.value) s.progress
            session_status := "phase_" ++ toString pn
            session_updated_at := s.clock
            audit := s.audit ++ [("phase_generation_started", some pn)]
            clock := s.clock + 1 }

/-- ArtifactCache.load_from_disk (src/prdgen/dependencies.py lines 132-152)
over the session output directory: every ARTIFACT_FILENAMES entry whose file
exists and is not blank.  A byte string is blank when it has no
non-whitespace byte (content.strip() falsy). -/
def isNonBlank (c : ByteStr) : Bool :=
  c.any (fun b => !(b == 32 || b == 9 || b == 10 || b == 13 || b == 11 || b == 12))

def loadCacheFromDisk (fs : FS) : List (ArtifactType × ByteStr) :=
  ARTIFACT_FILENAMES.filterMap (fun p =>
    match dictGet fs ("out/" ++ p.2) with
    | some (FsEntry.bytes c) => if isNonBlank c then some (p.1, c) else none
    | _ => none)

/-- PhasedFlowRunner.run_phase (src/prdgen/phased/flows.py lines 124-185).
Checks the prerequisite phase status, marks the phase generating, creates a
fresh generator whose cache is loaded from the session output directory
(cfg.use_cache with cache_dir = output_dir) and then seeded with all prior
snapshot artifacts via get_prior_snapshots (integrity errors propagate), and
produces this phase's artifacts: each artifact is taken from the cache when
present, otherwise obtained from the external text-generation backend —
abstracted as the oracle `gen` — and cached.  (The source routes the
per-artifact loop through ArtifactGenerator.generate_selected, whose
dependency-resolution step raises KeyError on these phase artifact lists —
claim C5; this definition models the generation loop itself on the phase's
artifact list.)  Returns the updated runner and the results. -/
def runner_run_phase (pn : Nat) (gen : ArtifactType → ByteStr) (fs : FS)
    (r : RunnerState) : Except String (RunnerState × List (ArtifactType × ByteStr)) :=
  match get_phase_definition pn with
  | none => Except.error ("Invalid phase number: " ++ toString pn)
  | some pd =>
    let priorOk : Bool :=
      match pd.requires_phase with
      | none => true
      | some req => (dictGet r.phase_statuses req).getD PhaseStatus.pending ==
          PhaseStatus.approved
    if priorOk = false then
      Except.error ("Phase " ++ toString pn ++ " requires prior phase approved first.")
    else
      let diskCache := loadCacheFromDisk fs
      match (if 1 < pn then get_prior_snapshots pn r.snapshots
             else Except.ok []) with
      | Except.error e => Except.error e
      | Except.ok prior =>
          let cache0 := prior.foldl (fun c p =>
            match ArtifactType.fromString p.1 with
            | some a => dictSet c a p.2
            | none => c) diskCache
          let results := pd.artifacts.map (fun a => (a, (dictGet cache0 a).getD (gen a)))
          let cache1 := results.foldl (fun c p => dictSet c p.1 p.2) cache0
          Except.ok
            ({ r with
               phase_statuses := dictSet r.phase_statuses pn PhaseStatus.review
               phase_artifacts := dictSet r.phase_artifacts pn results
               generator_cache := some cache1 }, results)

/-- The prior-snapshot loading loop of PhaseService._run_phase_generation
(phase_service.py lines 277-290) for phases 1..k: each prior gate with a
snapshot_dir has its snapshot loaded from disk into the runner (load errors
propagate as the task's exception), and the runner status for that phase set
to approved exactly when the gate row says approved. -/
def loadPriors (fs : FS) (gates : List (Nat × GateRow)) :
    Nat → RunnerState → Except String RunnerState
  | 0, r => Except.ok r
  | k + 1, r =>
    match loadPriors fs gates k r with
    | Except.error e => Except.error e
    | Except.ok r2 =>
        match dictGet gates (k + 1) with
        | none => Except.ok r2
        | some g =>
            match g.snapshot_dir with
            | none => Except.ok r2
            | some dir =>
                match load_snapshot_from_disk fs dir with
                | Except.error e => Except.error e
                | Except.ok snap =>
                    Except.ok
                      { r2 with
                        snapshots := dictSet r2.snapshots (k + 1) snap
                        phase_statuses := dictSet r2.phase_statuses (k + 1)
                          (if g.status == "approved" then PhaseStatus.approved
                           else PhaseStatus.pending) }

/-- PhaseService._run_phase_generation (phase_service.py lines 190-317),
success path: creates or reuses the session runner, loads prior snapshots
from disk, runs the phase, persists every produced artifact to the output
directory and as a phase_artifacts row keyed by content hash, and marks the
gate ready for review.  Any raised error is the task's exception. -/
def run_phase_generation (pn : Nat) (gen : ArtifactType → ByteStr)
    (s : SvcState) : Except String SvcState :=
  if s.session_exists = false then Except.error "Session not found"
  else
    let r0 : RunnerState :=
      match s.runner with
      | some r => r
      | none => { flow_type := s.flow_type, snapshot_base_dir := "out/snapshots" }
    match loadPriors s.fs s.gates (pn - 1) r0 with
    | Except.error e => Except.error e
    | Except.ok r1 =>
        match runner_run_phase pn gen s.fs r1 with
        | Except.error e => Except.error e
        | Except.ok (r2, results) =>
            let fs2 := results.foldl (fun fsAcc p =>
              dictSet fsAcc ("out/" ++ filenameForType p.1) (FsEntry.bytes p.2)) s.fs
            let artifacts2 := results.foldl (fun acc p =>
              dictSet acc (pn, p.1.value)
                { artifact_type := p.1.value
                  content_hash := compute_content_hash p.2
                  file_path := "out/" ++ filenameForType p.1
                  char_count := p.2.length }) s.artifacts
            Except.ok
              { s with
                runner := some r2
                fs := fs2
                artifacts := artifacts2
                gates := updateGate s.gates pn (fun g =>
                  { g with
                    status := "review"
                    generated_at := some s.clock
                    overall_progress := 100 })
                audit := s.audit ++ [("phase_review_ready", some pn)]
                clock := s.clock + 1 }

/-- The background thread body _background_generate (phase_service.py lines
162-179): on any exception the gate is marked failed and the failure
audit-logged; otherwise the effects of _run_phase_generation stand.  One such
task exists exactly for a gate in status generating (spawned once by a
successful start_phase). -/
def run_generation (pn : Nat) (gen : ArtifactType → ByteStr) (s : SvcState) : SvcState :=
  match run_phase_generation pn gen s with
  | Except.ok s2 => s2
  | Except.error _ =>
      { s with
        gates := updateGate s.gates pn (fun g => { g with status := "failed" })
        audit := s.audit ++ [("phase_generation_failed", some pn)]
        clock := s.clock + 1 }


/-- One iteration of the HITL edit loop of PhaseService.approve_phase
(phase_service.py lines 399-436) for one (artifact name, edited content)
entry: when a phase_artifacts row for this artifact exists and its file is
on disk, back the original up under snapshot_dir/originals, overwrite the
live file with the edited content, update the row's content hash and edited
flag, record an artifact_edits row with the original and edited hashes, and
audit-log the edit; otherwise the entry is silently skipped. -/
def processOneEdit (pn : Nat) (approver : String) (snapshot_dir : String)
    (s : SvcState) (p : String × ByteStr) : SvcState :=
  match dictGet s.artifacts (pn, p.1) with
  | none => s
  | some rec =>
    match dictGet s.fs rec.file_path with
    | some (FsEntry.bytes original_content) =>
        let original_hash := compute_content_hash original_content
        let edited_hash := compute_content_hash p.2
        let backup_path := snapshot_dir ++ "/originals/" ++ p.1 ++ "_original.md"
        { s with
          fs := dictSet (dictSet s.fs backup_path (FsEntry.bytes original_content))
            rec.file_path (FsEntry.bytes p.2)
          artifacts := dictSet s.artifacts (pn, p.1)
            { rec with content_hash := edited_hash, was_edited := true }
          edits := s.edits ++
            [{ phase_number := pn
               artifact_type := p.1
               original_hash := original_hash
               edited_hash := edited_hash
               original_file_path := backup_path
               edited_by := approver }]
          audit := s.audit ++ [("artifact_edited", some pn)] }
    | _ => s

/-- The edit loop of PhaseService.approve_phase over all edited artifacts. -/
def processEdits (pn : Nat) (approver : String) (snapshot_dir : String)
    (edited : List (String × ByteStr)) (s : SvcState) : SvcState :=
  edited.foldl (processOneEdit pn approver snapshot_dir) s

/-- PhasedFlowRunner.approve_phase (src/prdgen/phased/flows.py lines
187-252): requires the runner's phase status to be review; applies each HITL
edit whose name converts to an enum member present in the phase's artifacts
(also updating the generator cache when a generator exists); freezes a
snapshot of the (possibly edited) artifacts keyed by enum value, saves it
under snapshot_base_dir/phase_N (plus the questionnaire transcript for
phase 1), records it, and marks the phase approved. -/
def runner_approve_phase (pn : Nat) (approver : String) (notes : String)
    (edited : List (String × ByteStr)) (now : Nat) (fs : FS) (r : RunnerState) :
    Except String (RunnerState × FS × PhaseSnapshot) :=
  if ((dictGet r.phase_statuses pn).getD PhaseStatus.pending ==
      PhaseStatus.review) = false then
    Except.error ("Phase " ++ toString pn ++ " is not in review state.")
  else
    let artifacts0 := (dictGet r.phase_artifacts pn).getD []
    let artifacts := edited.foldl (fun arts p =>
      match ArtifactType.fromString p.1 with
      | some a => if (dictGet artifacts0 a).isSome then dictSet arts a p.2 else arts
      | none => arts) artifacts0
    let gcache := match r.generator_cache with
      | none => none
      | some c => some (edited.foldl (fun cc p =>
          match ArtifactType.fromString p.1 with
          | some a => if (dictGet artifacts0 a).isSome then dictSet cc a p.2 else cc
          | none => cc) c)
    let artifacts_dict := artifacts.map (fun p => (p.1.value, p.2))
    let snapshot := create_snapshot pn artifacts_dict (some approver) (some notes) now
    let sdir := r.snapshot_base_dir ++ "/phase_" ++ toString pn
    let fs2 := save_snapshot_to_disk snapshot sdir fs
    let fs3 := if pn = 1 then
        dictSet fs2 (sdir ++ "/questionnaire_transcript.md")
          (FsEntry.bytes r.raw_transcript)
      else fs2
    Except.ok
      ({ r with
         snapshots := dictSet r.snapshots pn snapshot
         phase_statuses := dictSet r.phase_statuses pn PhaseStatus.approved
         generator_cache := gcache }, fs3, snapshot)

/-- The tail of PhaseService.approve_phase common to both runner branches
(phase_service.py lines 446-470): set the gate approved with approver,
notes, completion time and snapshot directory, audit-log the approval, and
mark the session completed after phase 3. -/
def finalizeApproval (pn : Nat) (approver notes snapshot_dir : String)
    (s2 : SvcState) : SvcState :=
  let s3 :=
    { s2 with
      gates := updateGate s2.gates pn (fun g2 =>
        { g2 with
          status := "approved"
          approved_by := some approver
          approval_notes := some notes
          completed_at := some s2.clock
          snapshot_dir := some snapshot_dir })
      audit := s2.audit ++ [("phase_approved", some pn)]
      clock := s2.clock + 1 }
  if pn = 3 then
    { s3 with
      session_status := "completed"
      audit := s3.audit ++ [("session_completed", none)] }
  else s3

/-- PhaseService.approve_phase (phase_service.py lines 378-470): requires
the gate to be in review; applies HITL edits (backups, hash updates,
ArtifactEdit rows); lets the active runner freeze and persist the snapshot
(a runner error propagates); then finalizes the approval. -/
def approve_phase (pn : Nat) (approver : String) (notes : String)
    (edited : List (String × ByteStr)) (s : SvcState) : Except String SvcState :=
  match dictGet s.gates pn with
  | none => Except.error ("Phase " ++ toString pn ++ " is not in review state.")
  | some g =>
    if (g.status == "review") = false then
      Except.error ("Phase " ++ toString pn ++ " is not in review state.")
    else
      let snapshot_dir := "out/snapshots/phase_" ++ toString pn
      let s1 := processEdits pn approver snapshot_dir edited s
      match s1.runner with
      | some r =>
          match runner_approve_phase pn approver notes edited s1.clock s1.fs r with
          | Except.error e => Except.error e
          | Except.ok (r2, fs2, _) =>
              Except.ok (finalizeApproval pn approver notes snapshot_dir
                { s1 with runner := some r2, fs := fs2 })
      | none =>
          Except.ok (finalizeApproval pn approver notes snapshot_dir s1)

/-- PhasedFlowRunner.reject_phase (src/prdgen/phased/flows.py lines
254-276): requires the runner's phase status to be review; marks it
rejected, stores the feedback, evicts this phase's artifact types from the
generator cache (when a generator exists) and drops the stored phase
artifacts so a rerun regenerates them. -/
def runner_reject_phase (pn : Nat) (feedback : String) (r : RunnerState) :
    Except String RunnerState :=
  if ((dictGet r.phase_statuses pn).getD PhaseStatus.pending ==
      PhaseStatus.review) = false then
    Except.error ("Phase " ++ toString pn ++ " is not in review state.")
  else
    let gcache := match r.generator_cache, get_phase_definition pn with
      | some c, some pd => some (pd.artifacts.foldl (fun cc a => dictRemove cc a) c)
      | c, _ => c
    Except.ok
      { r with
        phase_statuses := dictSet r.phase_statuses pn PhaseStatus.rejected
        phase_feedback := dictSet r.phase_feedback pn feedback
        phase_artifacts := dictRemove r.phase_artifacts pn
        generator_cache := gcache }

/-- PhaseService.reject_phase (phase_service.py lines 472-502): requires the
gate to be in review; increments the rejection count, stores the feedback,
sets the gate rejected, audit-logs, and lets the active runner evict the
phase's artifacts from the cache. -/
def reject_phase (pn : Nat) (feedback : String) (s : SvcState) :
    Except String SvcState :=
  match dictGet s.gates pn with
  | none => Except.error ("Phase " ++ toString pn ++ " is not in review state.")
  | some g =>
    if (g.status == "review") = false then
      Except.error ("Phase " ++ toString pn ++ " is not in review state.")
    else
      let rejection_count := g.rejection_count + 1
      let s1 :=
        { s with
          gates := dictSet s.gates pn
            { g with
              status := "rejected"
              rejection_feedback := some feedback
              rejection_count := rejection_count }
          audit := s.audit ++ [("phase_rejected", some pn)]
          clock := s.clock + 1 }
      match s1.runner with
      | none => Except.ok s1
      | some r =>
          match runner_reject_phase pn feedback r with
          | Except.error e => Except.error e
          | Except.ok r2 => Except.ok { s1 with runner := some r2 }


/-! ### Generic dict update lemmas -/

section DictSetLemmas

variable {κ α : Type} [BEq κ] [LawfulBEq κ]

lemma dictGet_dictSet_self (m : List (κ × α)) (k : κ) (v : α) :
    dictGet (dictSet m k v) k = some v := by
  induction m with
  | nil => simp [dictSet, dictGet, List.find?]
  | cons q rest ih =>
      obtain ⟨k2, v2⟩ := q
      by_cases hq : (k2 == k) = true
      · rw [dictSet_cons_pos hq, dictGet_cons]
        simp
      · have hqf : (k2 == k) = false := Bool.not_eq_true _ ▸ hq
        rw [dictSet_cons_neg hqf, dictGet_cons]
        simp only [hqf, if_false]
        exact ih

lemma dictGet_dictSet_ne (m : List (κ × α)) (k : κ) (v : α) {k2 : κ} (h : k2 ≠ k) :
    dictGet (dictSet m k v) k2 = dictGet m k2 := by
  have hbeq : (k == k2) = false := by
    rw [beq_eq_false_iff_ne]
    exact fun hk => h hk.symm
  induction m with
  | nil =>
      simp [dictSet, dictGet, List.find?, hbeq]
  | cons q rest ih =>
      obtain ⟨k3, v3⟩ := q
      by_cases hq : (k3 == k) = true
      · have hk3 : k3 = k := by simpa using hq
        rw [dictSet_cons_pos hq, dictGet_cons, dictGet_cons]
        simp [hbeq, hk3]
      · have hqf : (k3 == k) = false := Bool.not_eq_true _ ▸ hq
        rw [dictSet_cons_neg hqf, dictGet_cons, dictGet_cons]
        by_cases h3 : (k3 == k2) = true
        · simp [h3]
        · have h3f : (k3 == k2) = false := Bool.not_eq_true _ ▸ h3
          simp only [h3f, if_false]
          exact ih

lemma isSome_dictGet_dictSet [DecidableEq κ] (m : List (κ × α)) (k : κ) (v : α) (q : κ) :
    (dictGet (dictSet m k v) q).isSome =
      (if q = k then true else (dictGet m q).isSome) := by
  by_cases h : q = k
  · subst h
    simp [dictGet_dictSet_self]
  · simp [h, dictGet_dictSet_ne m k v h]

end DictSetLemmas

/-! ### Gate-effect lemmas for the service operations -/

lemma dictGet_updateGate_ne (gates : List (Nat × GateRow)) (pn : Nat)
    (f : GateRow → GateRow) {q : Nat} (h : q ≠ pn) :
    dictGet (updateGate gates pn f) q = dictGet gates q := by
  unfold updateGate
  cases hg : dictGet gates pn with
  | none => rfl
  | some g => exact dictGet_dictSet_ne gates pn (f g) h

lemma dictGet_updateGate_self (gates : List (Nat × GateRow)) (pn : Nat)
    (f : GateRow → GateRow) {g : GateRow} (h : dictGet gates pn = some g) :
    dictGet (updateGate gates pn f) pn = some (f g) := by
  unfold updateGate
  rw [h]
  exact dictGet_dictSet_self gates pn (f g)

lemma isSome_updateGate (gates : List (Nat × GateRow)) (pn : Nat)
    (f : GateRow → GateRow) (q : Nat) :
    (dictGet (updateGate gates pn f) q).isSome = (dictGet gates q).isSome := by
  unfold updateGate
  cases hg : dictGet gates pn with
  | none => rfl
  | some g =>
      rw [isSome_dictGet_dictSet]
      by_cases h : q = pn
      · subst h
        simp [hg]
      · simp [h]

/-- Shape of the phase-definition table: the only phase numbers are 1, 2, 3,
and the prerequisite of phase n is phase n - 1. -/
lemma get_phase_definition_shape {pn : Nat} {pd : PhaseDefinition}
    (h : get_phase_definition pn = some pd) :
    (pn = 1 ∧ pd.requires_phase = none) ∨
    (pn = 2 ∧ pd.requires_phase = some 1) ∨
    (pn = 3 ∧ pd.requires_phase = some 2) := by
  by_cases h1 : pn = 1
  · subst h1
    have hr : get_phase_definition 1 = some phaseDef1 := rfl
    rw [h] at hr
    have hpd : pd = phaseDef1 := Option.some_injective _ hr
    exact Or.inl ⟨rfl, by rw [hpd]; rfl⟩
  · by_cases h2 : pn = 2
    · subst h2
      have hr : get_phase_definition 2 = some phaseDef2 := rfl
      rw [h] at hr
      have hpd : pd = phaseDef2 := Option.some_injective _ hr
      exact Or.inr (Or.inl ⟨rfl, by rw [hpd]; rfl⟩)
    · by_cases h3 : pn = 3
      · subst h3
        have hr : get_phase_definition 3 = some phaseDef3 := rfl
        rw [h] at hr
        have hpd : pd = phaseDef3 := Option.some_injective _ hr
        exact Or.inr (Or.inr ⟨rfl, by rw [hpd]; rfl⟩)
      · exfalso
        have e1 : (1 == pn) = false := by
          rw [beq_eq_false_iff_ne]; exact fun hk => h1 hk.symm
        have e2 : (2 == pn) = false := by
          rw [beq_eq_false_iff_ne]; exact fun hk => h2 hk.symm
        have e3 : (3 == pn) = false := by
          rw [beq_eq_false_iff_ne]; exact fun hk => h3 hk.symm
        have hnone : get_phase_definition pn = none := by
          simp [get_phase_definition, PHASE_DEFINITIONS, List.find?, e1, e2, e3,
            phaseDef1, phaseDef2, phaseDef3]
        rw [hnone] at h
        cases h


lemma start_phase_ok_inv {pn : Nat} {s s2 : SvcState}
    (h : start_phase pn s = Except.ok s2) :
    s.session_exists = true ∧
    dictGet s.gates pn = none ∧
    (pn = 1 ∨ ((pn = 2 ∨ pn = 3) ∧
      ∃ gp, dictGet s.gates (pn - 1) = some gp ∧ gp.status = "approved")) ∧
    (∀ q, q ≠ pn → dictGet s2.gates q = dictGet s.gates q) ∧
    (∃ g1, dictGet s2.gates pn = some g1 ∧ g1.status = "generating") := by
  simp only [start_phase] at h
  by_cases hsess : s.session_exists = false
  · rw [if_pos hsess] at h; cases h
  · rw [if_neg hsess] at h
    have hsesst : s.session_exists = true := by
      cases hb : s.session_exists
      · exact absurd hb hsess
      · rfl
    cases hpd : get_phase_definition pn with
    | none => simp only [hpd] at h; cases h
    | some pd =>
        simp only [hpd] at h
        by_cases hpok : (match pd.requires_phase with
            | none => true
            | some req =>
                match dictGet s.gates req with
                | some g => g.status == "approved"
                | none => false) = false
        · rw [if_pos hpok] at h; cases h
        · rw [if_neg hpok] at h
          by_cases hex : (dictGet s.gates pn).isSome = true
          · rw [if_pos hex] at h; cases h
          · rw [if_neg hex] at h
            cases h
            have hnone : dictGet s.gates pn = none := by
              cases hb : dictGet s.gates pn
              · rfl
              · exact absurd (by rw [hb]; rfl) hex
            have hptrue : (match pd.requires_phase with
                | none => true
                | some req =>
                    match dictGet s.gates req with
                    | some g => g.status == "approved"
                    | none => false) = true := by
              cases hb : (match pd.requires_phase with
                  | none => true
                  | some req =>
                      match dictGet s.gates req with
                      | some g => g.status == "approved"
                      | none => false)
              · exact absurd hb hpok
              · rfl
            refine ⟨hsesst, hnone, ?_, ?_, ?_⟩
            · rcases get_phase_definition_shape hpd with ⟨h1, _⟩ | ⟨h2, hreq⟩ | ⟨h3, hreq⟩
              · exact Or.inl h1
              · subst h2
                simp only [hreq] at hptrue
                right
                refine ⟨Or.inl rfl, ?_⟩
                cases hb : dictGet s.gates 1 with
                | none => simp only [hb] at hptrue; exact absurd hptrue (by decide)
                | some gp =>
                    simp only [hb] at hptrue
                    exact ⟨gp, rfl, by simpa using hptrue⟩
              · subst h3
                simp only [hreq] at hptrue
                right
                refine ⟨Or.inr rfl, ?_⟩
                cases hb : dictGet s.gates 2 with
                | none => simp only [hb] at hptrue; exact absurd hptrue (by decide)
                | some gp =>
                    simp only [hb] at hptrue
                    exact ⟨gp, rfl, by simpa using hptrue⟩
            · intro q hq
              exact dictGet_dictSet_ne s.gates pn _ hq
            · exact ⟨_, dictGet_dictSet_self s.gates pn _, rfl⟩

lemma run_phase_generation_ok_gates {pn : Nat} {gen : ArtifactType → ByteStr}
    {s s2 : SvcState} (h : run_phase_generation pn gen s = Except.ok s2) :
    s2.gates = updateGate s.gates pn (fun g =>
      { g with
        status := "review"
        generated_at := some s.clock
        overall_progress := 100 }) := by
  simp only [run_phase_generation] at h
  by_cases hsess : s.session_exists = false
  · rw [if_pos hsess] at h; cases h
  · rw [if_neg hsess] at h
    cases hlp : loadPriors s.fs s.gates (pn - 1)
        (match s.runner with
         | some r => r
         | none => { flow_type := s.flow_type, snapshot_base_dir := "out/snapshots" }) with
    | error e => simp only [hlp] at h; cases h
    | ok r1 =>
        simp only [hlp] at h
        cases hrun : runner_run_phase pn gen s.fs r1 with
        | error e => simp only [hrun] at h; cases h
        | ok pr =>
            simp only [hrun] at h
            cases h
            rfl

lemma run_generation_gates (pn : Nat) (gen : ArtifactType → ByteStr) (s : SvcState) :
    (∀ q, q ≠ pn → dictGet (run_generation pn gen s).gates q = dictGet s.gates q) ∧
    (∀ q, (dictGet (run_generation pn gen s).gates q).isSome =
      (dictGet s.gates q).isSome) := by
  unfold run_generation
  cases hr : run_phase_generation pn gen s with
  | error e =>
      exact ⟨fun q hq => dictGet_updateGate_ne _ _ _ hq,
        fun q => isSome_updateGate _ _ _ q⟩
  | ok s2 =>
      rw [run_phase_generation_ok_gates hr]
      exact ⟨fun q hq => dictGet_updateGate_ne _ _ _ hq,
        fun q => isSome_updateGate _ _ _ q⟩

lemma processOneEdit_gates (pn : Nat) (ap dir : String) (s : SvcState)
    (p : String × ByteStr) : (processOneEdit pn ap dir s p).gates = s.gates := by
  cases h1 : dictGet s.artifacts (pn, p.1) with
  | none => simp [processOneEdit, h1]
  | some rec =>
      cases h2 : dictGet s.fs rec.file_path with
      | none => simp [processOneEdit, h1, h2]
      | some e => cases e <;> simp [processOneEdit, h1, h2]

lemma processEdits_gates (pn : Nat) (ap dir : String) (ed : List (String × ByteStr))
    (s : SvcState) : (processEdits pn ap dir ed s).gates = s.gates := by
  induction ed generalizing s with
  | nil => rfl
  | cons p rest ih =>
      show (processEdits pn ap dir rest (processOneEdit pn ap dir s p)).gates = s.gates
      rw [ih, processOneEdit_gates]

lemma finalizeApproval_gates (pn : Nat) (ap nt sd : String) (s2 : SvcState) :
    (finalizeApproval pn ap nt sd s2).gates = updateGate s2.gates pn (fun g2 =>
      { g2 with
        status := "approved"
        approved_by := some ap
        approval_notes := some nt
        completed_at := some s2.clock
        snapshot_dir := some sd }) := by
  by_cases h3 : pn = 3 <;> simp [finalizeApproval, h3]

lemma approve_phase_ok_gates {pn : Nat} {ap nt : String}
    {ed : List (String × ByteStr)} {s s2 : SvcState}
    (h : approve_phase pn ap nt ed s = Except.ok s2) :
    ∃ g0, dictGet s.gates pn = some g0 ∧ g0.status = "review" ∧
      (∀ q, q ≠ pn → dictGet s2.gates q = dictGet s.gates q) ∧
      (∀ q, (dictGet s2.gates q).isSome = (dictGet s.gates q).isSome) ∧
      (∃ g1, dictGet s2.gates pn = some g1 ∧ g1.status = "approved") := by
  simp only [approve_phase] at h
  cases hg : dictGet s.gates pn with
  | none => simp only [hg] at h; cases h
  | some g =>
      simp only [hg] at h
      by_cases hrev : (g.status == "review") = false
      · rw [if_pos hrev] at h; cases h
      · rw [if_neg hrev] at h
        have hrevt : g.status = "review" := by
          have hb2 : (g.status == "review") = true := by
            cases hb : (g.status == "review")
            · exact absurd hb hrev
            · rfl
          simpa using hb2
        have hedits : (processEdits pn ap ("out/snapshots/phase_" ++ toString pn)
            ed s).gates = s.gates := processEdits_gates _ _ _ _ _
        have main : ∀ sm : SvcState, sm.gates = s.gates →
            s2 = finalizeApproval pn ap nt ("out/snapshots/phase_" ++ toString pn) sm →
            (∀ q, q ≠ pn → dictGet s2.gates q = dictGet s.gates q) ∧
            (∀ q, (dictGet s2.gates q).isSome = (dictGet s.gates q).isSome) ∧
            (∃ g1, dictGet s2.gates pn = some g1 ∧ g1.status = "approved") := by
          intro sm hsm hs2
          rw [hs2, finalizeApproval_gates, hsm]
          refine ⟨fun q hq => dictGet_updateGate_ne _ _ _ hq,
            fun q => isSome_updateGate _ _ _ q, ?_⟩
          exact ⟨_, dictGet_updateGate_self _ _ _ hg, rfl⟩
        cases hr : (processEdits pn ap ("out/snapshots/phase_" ++ toString pn) ed s).runner with
        | some r =>
            simp only [hr] at h
            cases hra : runner_approve_phase pn ap nt ed
                (processEdits pn ap ("out/snapshots/phase_" ++ toString pn) ed s).clock
                (processEdits pn ap ("out/snapshots/phase_" ++ toString pn) ed s).fs r with
            | error e => simp only [hra] at h; cases h
            | ok res =>
                simp only [hra] at h
                obtain ⟨r2, fs2, snap⟩ := res
                cases h
                refine ⟨g, rfl, hrevt, ?_⟩
                exact main _ (by simp [hedits]) rfl
        | none =>
            simp only [hr] at h
            cases h
            refine ⟨g, rfl, hrevt, ?_⟩
            exact main _ hedits rfl


lemma reject_phase_ok_gates {pn : Nat} {fb : String} {s s2 : SvcState}
    (h : reject_phase pn fb s = Except.ok s2) :
    ∃ g0, dictGet s.gates pn = some g0 ∧ g0.status = "review" ∧
      (∀ q, q ≠ pn → dictGet s2.gates q = dictGet s.gates q) ∧
      (∀ q, (dictGet s2.gates q).isSome = (dictGet s.gates q).isSome) ∧
      (∃ g1, dictGet s2.gates pn = some g1 ∧ g1.status = "rejected") := by
  simp only [reject_phase] at h
  cases hg : dictGet s.gates pn with
  | none => simp only [hg] at h; cases h
  | some g =>
      simp only [hg] at h
      by_cases hrev : (g.status == "review") = false
      · rw [if_pos hrev] at h; cases h
      · rw [if_neg hrev] at h
        have hrevt : g.status = "review" := by
          have hb2 : (g.status == "review") = true := by
            cases hb : (g.status == "review")
            · exact absurd hb hrev
            · rfl
          simpa using hb2
        have main : ∀ s2b : SvcState,
            s2b.gates = dictSet s.gates pn
              { g with
                status := "rejected"
                rejection_feedback := some fb
                rejection_count := g.rejection_count + 1 } →
            (∀ q, q ≠ pn → dictGet s2b.gates q = dictGet s.gates q) ∧
            (∀ q, (dictGet s2b.gates q).isSome = (dictGet s.gates q).isSome) ∧
            (∃ g1, dictGet s2b.gates pn = some g1 ∧ g1.status = "rejected") := by
          intro s2b hg2
          rw [hg2]
          refine ⟨fun q hq => dictGet_dictSet_ne _ _ _ hq, ?_, ?_⟩
          · intro q
            rw [isSome_dictGet_dictSet]
            by_cases hq : q = pn
            · subst hq
              simp [hg]
            · simp [hq]
          · exact ⟨_, dictGet_dictSet_self _ _ _, rfl⟩
        cases hrun : s.runner with
        | none =>
            simp only [hrun] at h
            cases h
            exact ⟨g, rfl, hrevt, main _ rfl⟩
        | some r =>
            simp only [hrun] at h
            cases hrr : runner_reject_phase pn fb r with
            | error e => simp only [hrr] at h; cases h
            | ok r2 =>
                simp only [hrr] at h
                cases h
                exact ⟨g, rfl, hrevt, main _ rfl⟩

/-- Reachable session states: an initial create_session followed by any
sequence of successful operations; run_generation fires only for a gate in
status generating (a background task exists exactly for such a gate, spawned
once by the start_phase that created it). -/
inductive Reachable : SvcState → Prop where
  | init (fv : FlowType) : Reachable (create_session fv {})
  | start {s s2 : SvcState} (pn : Nat) :
      Reachable s → start_phase pn s = Except.ok s2 → Reachable s2
  | generate {s : SvcState} (pn : Nat) (gen : ArtifactType → ByteStr) :
      Reachable s →
      (∃ g, dictGet s.gates pn = some g ∧ g.status = "generating") →
      Reachable (run_generation pn gen s)
  | approve {s s2 : SvcState} (pn : Nat) (ap nt : String)
      (ed : List (String × ByteStr)) :
      Reachable s → approve_phase pn ap nt ed s = Except.ok s2 → Reachable s2
  | reject {s s2 : SvcState} (pn : Nat) (fb : String) :
      Reachable s → reject_phase pn fb s = Except.ok s2 → Reachable s2

/-- The gate-ordering invariant: a gate row for phase pn+1 can only exist
while the phase-pn gate is approved. -/
def GateInv (s : SvcState) : Prop :=
  ∀ pn, 1 ≤ pn → (dictGet s.gates (pn + 1)).isSome = true →
    ∃ g, dictGet s.gates pn = some g ∧ g.status = "approved"

lemma reachable_gateInv {s : SvcState} (h : Reachable s) : GateInv s := by
  induction h with
  | init fv =>
      intro pn h1 hsome
      simp [create_session, dictGet, List.find?] at hsome
  | start pn hreach hok ih =>
      obtain ⟨_, hnone, hprior, hframe, hnew⟩ := start_phase_ok_inv hok
      intro q h1 hsome
      by_cases hq1 : q + 1 = pn
      · rcases hprior with h1' | ⟨hpn23, gp, hgp, hgpstat⟩
        · omega
        · have hq : q = pn - 1 := by omega
          subst hq
          rw [hframe (pn - 1) (by omega)]
          exact ⟨gp, hgp, hgpstat⟩
      · rw [hframe (q + 1) hq1] at hsome
        obtain ⟨g, hgq, hstat⟩ := ih q h1 hsome
        by_cases hq2 : q = pn
        · subst hq2
          rw [hgq] at hnone
          cases hnone
        · rw [hframe q hq2]
          exact ⟨g, hgq, hstat⟩
  | generate pn gen hreach hgen ih =>
      obtain ⟨hframe, hsome⟩ := run_generation_gates pn gen _
      intro q h1 hq1some
      rw [hsome (q + 1)] at hq1some
      obtain ⟨g, hgq, hstat⟩ := ih q h1 hq1some
      by_cases hq2 : q = pn
      · subst hq2
        obtain ⟨g2, hg2, hg2stat⟩ := hgen
        rw [hgq] at hg2
        cases hg2
        rw [hstat] at hg2stat
        exact absurd hg2stat (by decide)
      · rw [hframe q hq2]
        exact ⟨g, hgq, hstat⟩
  | approve pn ap nt ed hreach hok ih =>
      obtain ⟨g0, hg0, hg0stat, hframe, hsome, g1, hg1, hg1stat⟩ :=
        approve_phase_ok_gates hok
      intro q h1 hq1some
      rw [hsome (q + 1)] at hq1some
      obtain ⟨g, hgq, hstat⟩ := ih q h1 hq1some
      by_cases hq2 : q = pn
      · subst hq2
        exact ⟨g1, hg1, hg1stat⟩
      · rw [hframe q hq2]
        exact ⟨g, hgq, hstat⟩
  | reject pn fb hreach hok ih =>
      obtain ⟨g0, hg0, hg0stat, hframe, hsome, g1, hg1, hg1stat⟩ :=
        reject_phase_ok_gates hok
      intro q h1 hq1some
      rw [hsome (q + 1)] at hq1some
      obtain ⟨g, hgq, hstat⟩ := ih q h1 hq1some
      by_cases hq2 : q = pn
      · subst hq2
        rw [hgq] at hg0
        cases hg0
        rw [hstat] at hg0stat
        exact absurd hg0stat (by decide)
      · rw [hframe q hq2]
        exact ⟨g, hgq, hstat⟩


/-! ### C1 and C7: phase ordering and rejection/regeneration -/

/-- The happy-path trace of one session: create, start phase 1. -/
def sA0 : SvcState := create_session FlowType.greenfield {}

def sA1 : SvcState :=
  match start_phase 1 sA0 with
  | Except.ok s => s
  | Except.error _ => sA0

/-- The external generation backend used in the traces: every artifact's
content is the two bytes "hi". -/
def genA : ArtifactType → ByteStr := fun _ => [104, 105]

def sA2 : SvcState := run_generation 1 genA sA1

def sA3 : SvcState :=
  match approve_phase 1 "alice" "" [] sA2 with
  | Except.ok s => s
  | Except.error _ => sA2

def sA4 : SvcState :=
  match start_phase 2 sA3 with
  | Except.ok s => s
  | Except.error _ => sA3

/-- The rejection trace: same prefix, then phase 1 is rejected. -/
def sB3 : SvcState :=
  match reject_phase 1 "bad" sA2 with
  | Except.ok s => s
  | Except.error _ => sA2

/-- C1 is false as stated: with phaseNumber = 1 and a valid session,
startPhase does not always succeed — a second startPhase(1) after the first
fails on the UNIQUE(session_id, phase_number) INSERT of create_phase_gate
(sqlite3.IntegrityError), even though phaseNumber = 1. -/
theorem claim_C1_counterexample :
    start_phase 1 sA0 = Except.ok sA1 ∧
    start_phase 1 sA1 = Except.error
      "IntegrityError: UNIQUE constraint failed: phase_gates.session_id, phase_gates.phase_number" :=
  ⟨rfl, rfl⟩

lemma start_phase_error_of_prior_not_approved {pn : Nat} {s : SvcState}
    {pd : PhaseDefinition} (hsess : s.session_exists = true)
    (hpd : get_phase_definition pn = some pd)
    (hpfalse : (match pd.requires_phase with
      | none => true
      | some req =>
          match dictGet s.gates req with
          | some g => g.status == "approved"
          | none => false) = false) :
    start_phase pn s = Except.error ("Phase " ++ toString pn ++ " requires Phase " ++
      toString (pd.requires_phase.getD 0) ++ " to be approved first.") := by
  simp only [start_phase]
  rw [if_neg (by simp [hsess])]
  simp only [hpd, hpfalse]
  simp

lemma start_phase_succeeds {pn : Nat} {s : SvcState} {pd : PhaseDefinition}
    (hsess : s.session_exists = true) (hpd : get_phase_definition pn = some pd)
    (hptrue : (match pd.requires_phase with
      | none => true
      | some req =>
          match dictGet s.gates req with
          | some g => g.status == "approved"
          | none => false) = true)
    (hnone : dictGet s.gates pn = none) :
    start_phase pn s = Except.ok
      { s with
        gates := dictSet s.gates pn
          { phase_number := pn, phase_name := pd.name, status := "generating",
            started_at := some s.clock }
        progress := initProgress pn (pd.artifacts.map ArtifactType.value) s.progress
        session_status := "phase_" ++ toString pn
        session_updated_at := s.clock
        audit := s.audit ++ [("phase_generation_started", some pn)]
        clock := s.clock + 1 } := by
  simp only [start_phase]
  rw [if_neg (by simp [hsess])]
  simp only [hpd, hptrue]
  rw [if_neg (by simp), if_neg (by simp [hnone])]

/-- C1 amended.  startPhase(sessionId, phaseNumber) with phaseNumber > 1
fails with a precondition error unless the gate for phase phaseNumber-1 has
status approved; with phaseNumber = 1, or once the prior phase is approved,
it succeeds provided no gate row yet exists for that phase (re-starting an
already-started phase fails on the gate-uniqueness constraint, see the
counterexample); and in every reachable session state a gate for phase pn+1
can only exist while the phase-pn gate is approved, so a session's phase
gates become approved in strictly increasing phase-number order. -/
theorem claim_C1_phase_ordering :
    (∀ (s : SvcState) (pn : Nat), s.session_exists = true → (pn = 2 ∨ pn = 3) →
      (∀ g, dictGet s.gates (pn - 1) = some g → g.status ≠ "approved") →
      start_phase pn s = Except.error ("Phase " ++ toString pn ++ " requires Phase " ++
        toString (pn - 1) ++ " to be approved first.")) ∧
    (∀ (s : SvcState) (pn : Nat), s.session_exists = true →
      (pn = 1 ∨ ((pn = 2 ∨ pn = 3) ∧
        ∃ gp, dictGet s.gates (pn - 1) = some gp ∧ gp.status = "approved")) →
      dictGet s.gates pn = none →
      ∃ s2, start_phase pn s = Except.ok s2 ∧
        ∃ g1, dictGet s2.gates pn = some g1 ∧ g1.status = "generating") ∧
    (∀ s, Reachable s → ∀ pn, 1 ≤ pn → (dictGet s.gates (pn + 1)).isSome = true →
      ∃ g, dictGet s.gates pn = some g ∧ g.status = "approved") := by
  refine ⟨?_, ?_, ?_⟩
  · rintro s pn hsess (rfl | rfl) hnap
    · refine start_phase_error_of_prior_not_approved hsess
        (show get_phase_definition 2 = some phaseDef2 from rfl) ?_
      show (match dictGet s.gates 1 with
        | some g => g.status == "approved"
        | none => false) = false
      cases hb : dictGet s.gates 1 with
      | none => rfl
      | some g =>
          simp only []
          rw [beq_eq_false_iff_ne]
          exact hnap g hb
    · refine start_phase_error_of_prior_not_approved hsess
        (show get_phase_definition 3 = some phaseDef3 from rfl) ?_
      show (match dictGet s.gates 2 with
        | some g => g.status == "approved"
        | none => false) = false
      cases hb : dictGet s.gates 2 with
      | none => rfl
      | some g =>
          simp only []
          rw [beq_eq_false_iff_ne]
          exact hnap g hb
  · rintro s pn hsess hpr hnone
    rcases hpr with rfl | ⟨h23, gp, hgp, hgpstat⟩
    · exact ⟨_, start_phase_succeeds hsess
        (show get_phase_definition 1 = some phaseDef1 from rfl) rfl hnone,
        _, dictGet_dictSet_self _ _ _, rfl⟩
    · have hbeq : (gp.status == "approved") = true := by simpa using hgpstat
      rcases h23 with rfl | rfl
      · refine ⟨_, start_phase_succeeds hsess
          (show get_phase_definition 2 = some phaseDef2 from rfl) ?_ hnone,
          _, dictGet_dictSet_self _ _ _, rfl⟩
        show (match dictGet s.gates 1 with
          | some g => g.status == "approved"
          | none => false) = true
        rw [show (1 : Nat) = 2 - 1 from rfl, hgp]
        exact hbeq
      · refine ⟨_, start_phase_succeeds hsess
          (show get_phase_definition 3 = some phaseDef3 from rfl) ?_ hnone,
          _, dictGet_dictSet_self _ _ _, rfl⟩
        show (match dictGet s.gates 2 with
          | some g => g.status == "approved"
          | none => false) = true
        rw [show (2 : Nat) = 3 - 1 from rfl, hgp]
        exact hbeq
  · intro s hreach pn h1 hsome
    exact reachable_gateInv hreach pn h1 hsome

/-- Witness for C1 amended: starting phase 2 on the fresh session fails with
the precondition error; after the phase-1 happy path (generate, approve),
phase 2 starts successfully into status generating; and in the reachable
state with phase 2's gate present, phase 1's gate is approved. -/
theorem claim_C1_phase_ordering_witness :
    start_phase 2 sA0 =
      Except.error "Phase 2 requires Phase 1 to be approved first." ∧
    (∃ s2, start_phase 2 sA3 = Except.ok s2 ∧
      ∃ g1, dictGet s2.gates 2 = some g1 ∧ g1.status = "generating") ∧
    (∃ g, dictGet sA4.gates 1 = some g ∧ g.status = "approved") := by
  have r0 : Reachable sA0 := Reachable.init FlowType.greenfield
  have r1 : Reachable sA1 := Reachable.start 1 r0 rfl
  have r2 : Reachable sA2 := Reachable.generate 1 genA r1 ⟨_, rfl, rfl⟩
  have r3 : Reachable sA3 := Reachable.approve 1 "alice" "" [] r2 rfl
  have r4 : Reachable sA4 := Reachable.start 2 r3 rfl
  refine ⟨?_, ?_, ?_⟩
  · exact claim_C1_phase_ordering.1 sA0 2 rfl (Or.inl rfl)
      (by intro g hg; simp [sA0, create_session, dictGet, List.find?] at hg)
  · exact claim_C1_phase_ordering.2.1 sA3 2 rfl
      (Or.inr ⟨Or.inl rfl, ⟨_, rfl, rfl⟩⟩) rfl
  · exact claim_C1_phase_ordering.2.2 sA4 r4 1 (le_refl 1) rfl

/-- C7: rejectPhase behaves as claimed (requires review, increments the
rejection count, stores the feedback, sets the gate rejected, evicts the
phase's artifacts from the generator cache) — but the subsequent
startPhase for the same phase does NOT succeed: create_phase_gate's plain
INSERT violates UNIQUE(session_id, phase_number) and raises
sqlite3.IntegrityError, so the REJECTED → GENERATING regenerate transition
is unreachable through startPhase, contradicting the can_regenerate: true
response of reject_phase. -/
theorem claim_C7_reject_then_restart_fails :
    (∃ g, dictGet sA2.gates 1 = some g ∧ g.status = "review" ∧
      g.rejection_count = 0) ∧
    reject_phase 1 "bad" sA2 = Except.ok sB3 ∧
    (∃ g, dictGet sB3.gates 1 = some g ∧ g.status = "rejected" ∧
      g.rejection_count = 1 ∧ g.rejection_feedback = some "bad") ∧
    (∃ r c, sB3.runner = some r ∧ r.generator_cache = some c ∧
      dictGet c context_summary = none ∧ dictGet c corpus_summary = none ∧
      dictGet c prd = none ∧ dictGet c capabilities = none) ∧
    start_phase 1 sB3 = Except.error
      "IntegrityError: UNIQUE constraint failed: phase_gates.session_id, phase_gates.phase_number" :=
  ⟨⟨_, rfl, rfl, rfl⟩, rfl, ⟨_, rfl, rfl, rfl, rfl⟩, ⟨_, _, rfl, rfl, rfl, rfl, rfl, rfl⟩, rfl⟩


/-! ### C6: edit propagation through approval -/

lemma string_append_assoc (a b c : String) : a ++ b ++ c = a ++ (b ++ c) := by
  apply String.ext
  simp [String.data_append]

lemma string_append_right_inj (a : String) {x y : String}
    (h : a ++ x = a ++ y) : x = y := by
  apply String.ext
  have hd := congrArg String.data h
  rw [String.data_append, String.data_append] at hd
  exact List.append_cancel_left hd

lemma fromString_value : ∀ a : ArtifactType, a.inEnum = true →
    ArtifactType.fromString a.value = some a := by decide

lemma filenameFor_value_inj : ∀ a b : ArtifactType,
    filenameFor a.value = filenameFor b.value → a = b := by decide

lemma processOneEdit_eq {pn : Nat} {ap dir : String} {s : SvcState}
    {n : String} {newC : ByteStr} {rec : ArtRow} {origC : ByteStr}
    (hrec : dictGet s.artifacts (pn, n) = some rec)
    (hfile : dictGet s.fs rec.file_path = some (FsEntry.bytes origC)) :
    processOneEdit pn ap dir s (n, newC) =
      { s with
        fs := dictSet (dictSet s.fs (dir ++ "/originals/" ++ n ++ "_original.md")
          (FsEntry.bytes origC)) rec.file_path (FsEntry.bytes newC)
        artifacts := dictSet s.artifacts (pn, n)
          { rec with content_hash := compute_content_hash newC, was_edited := true }
        edits := s.edits ++
          [{ phase_number := pn
             artifact_type := n
             original_hash := compute_content_hash origC
             edited_hash := compute_content_hash newC
             original_file_path := dir ++ "/originals/" ++ n ++ "_original.md"
             edited_by := ap }]
        audit := s.audit ++ [("artifact_edited", some pn)] } := by
  simp only [processOneEdit, hrec, hfile]

lemma keys_dictSet_of_mem {κ α : Type} [BEq κ] [LawfulBEq κ]
    {m : List (κ × α)} {k : κ} {v0 : α} (hmem : (k, v0) ∈ m) (v : α) :
    (dictSet m k v).map Prod.fst = m.map Prod.fst := by
  induction m with
  | nil => cases hmem
  | cons q rest ih =>
      obtain ⟨k2, v2⟩ := q
      by_cases hq : (k2 == k) = true
      · rw [dictSet_cons_pos hq]
        have : k2 = k := by simpa using hq
        simp [this]
      · have hqf : (k2 == k) = false := Bool.not_eq_true _ ▸ hq
        rw [dictSet_cons_neg hqf]
        rcases List.mem_cons.1 hmem with heq | hmem2
        · exact absurd (congrArg Prod.fst heq.symm) (by
            intro hk
            rw [beq_eq_false_iff_ne] at hqf
            exact hqf hk)
        · simp [ih hmem2]

lemma dictGet_fold_not_written {L : List (String × ByteStr)} {d : String}
    (x : String) (hx : ∀ p ∈ L, d ++ "/" ++ filenameFor p.1 ≠ x) :
    ∀ fs : FS, dictGet (L.foldl (fun acc p =>
        dictSet acc (d ++ "/" ++ filenameFor p.1) (FsEntry.bytes p.2)) fs) x =
      dictGet fs x := by
  induction L with
  | nil => intro fs; rfl
  | cons q rest ih =>
      intro fs
      rw [List.foldl_cons]
      rw [ih (fun p hp => hx p (List.mem_cons.2 (Or.inr hp)))]
      exact dictGet_dictSet_ne _ _ _ (Ne.symm (hx q (List.mem_cons.2 (Or.inl rfl))))

lemma dictGet_save_fold {L : List (String × ByteStr)} {d : String}
    (hnd : (L.map (fun p => filenameFor p.1)).Nodup) {n : String} {c : ByteStr}
    (hmem : (n, c) ∈ L) :
    ∀ fs : FS, dictGet (L.foldl (fun acc p =>
        dictSet acc (d ++ "/" ++ filenameFor p.1) (FsEntry.bytes p.2)) fs)
      (d ++ "/" ++ filenameFor n) = some (FsEntry.bytes c) := by
  induction L with
  | nil => cases hmem
  | cons q rest ih =>
      intro fs
      rw [List.foldl_cons]
      rcases List.mem_cons.1 hmem with heq | hmem2
      · subst heq
        have hnotin : ∀ p ∈ rest, d ++ "/" ++ filenameFor p.1 ≠
            d ++ "/" ++ filenameFor n := by
          intro p hp h
          have hfn : filenameFor p.1 = filenameFor n := by
            rw [string_append_assoc, string_append_assoc] at h
            exact string_append_right_inj _ (string_append_right_inj _ h)
          have : filenameFor n ∈ rest.map (fun p => filenameFor p.1) :=
            List.mem_map.2 ⟨p, hp, hfn⟩
          exact (List.nodup_cons.1 hnd).1 this
        rw [dictGet_fold_not_written _ hnotin]
        exact dictGet_dictSet_self _ _ _
      · have hne : filenameFor q.1 ≠ filenameFor n := by
          intro h
          have : filenameFor n ∈ rest.map (fun p => filenameFor p.1) :=
            List.mem_map.2 ⟨(n, c), hmem2, rfl⟩
          rw [← h] at this
          exact (List.nodup_cons.1 hnd).1 this
        exact ih (List.nodup_cons.1 hnd).2 hmem2 _


lemma finalizeApproval_projs (pn : Nat) (ap nt sd : String) (s2 : SvcState) :
    (finalizeApproval pn ap nt sd s2).artifacts = s2.artifacts ∧
    (finalizeApproval pn ap nt sd s2).edits = s2.edits ∧
    (finalizeApproval pn ap nt sd s2).runner = s2.runner ∧
    (finalizeApproval pn ap nt sd s2).fs = s2.fs := by
  by_cases h3 : pn = 3 <;> simp [finalizeApproval, h3]

lemma value_inj : ∀ a b : ArtifactType, a.value = b.value → a = b := by decide

lemma filenameFor_value_ne_meta : ∀ a : ArtifactType,
    filenameFor a.value ≠ "snapshot_meta.json" := by decide

lemma filenameFor_value_ne_transcript : ∀ a : ArtifactType,
    filenameFor a.value ≠ "questionnaire_transcript.md" := by decide

lemma create_snapshot_artifacts (pn : Nat) (A : List (String × ByteStr))
    (ab nt : Option String) (now : Nat) :
    (create_snapshot pn A ab nt now).artifacts = A := rfl

lemma dictGet_save_snapshot_artifact {snap : PhaseSnapshot} {d : String} {fs : FS}
    {n : String} {c : ByteStr}
    (hnd : (snap.artifacts.map (fun p => filenameFor p.1)).Nodup)
    (hmem : (n, c) ∈ snap.artifacts) (hne : filenameFor n ≠ "snapshot_meta.json") :
    dictGet (save_snapshot_to_disk snap d fs) (d ++ "/" ++ filenameFor n) =
      some (FsEntry.bytes c) := by
  have hne2 : d ++ "/" ++ filenameFor n ≠ d ++ "/snapshot_meta.json" := by
    intro h
    rw [string_append_assoc] at h
    have h2 := string_append_right_inj d h
    refine hne (string_append_right_inj "/" (x := filenameFor n)
      (y := "snapshot_meta.json") ?_)
    rw [h2]
    rfl
  simp only [save_snapshot_to_disk]
  rw [dictGet_dictSet_ne _ _ _ hne2]
  exact dictGet_save_fold hnd hmem fs

/-- C6.  Approving a phase that is in review (both in the store and in the
active runner) with one edited artifact — present as a phase_artifacts row
whose file holds the originally generated content, and present in the
runner's in-memory artifacts — succeeds and results in: (a) the stored
PhaseArtifact row holding the SHA-256 hash of the edited content with the
edited flag set; (b) an ArtifactEdit row whose original and edited hashes
are the hashes of the pre-edit and edited contents; and (c) the runner's
frozen snapshot for the phase, persisted under the snapshot directory,
carrying the edited content, not the originally generated content. -/
theorem claim_C6_edit_propagation
    (pn : Nat) (ap nt : String) (s : SvcState) (g : GateRow) (r : RunnerState)
    (arts0 : List (ArtifactType × ByteStr)) (at0 : ArtifactType)
    (origC newC : ByteStr) (rec : ArtRow)
    (hg : dictGet s.gates pn = some g) (hgst : g.status = "review")
    (hr : s.runner = some r)
    (hrst : dictGet r.phase_statuses pn = some PhaseStatus.review)
    (harts0 : dictGet r.phase_artifacts pn = some arts0)
    (hmem : (at0, origC) ∈ arts0)
    (hnodup : (arts0.map Prod.fst).Nodup)
    (henum : at0.inEnum = true)
    (hrec : dictGet s.artifacts (pn, at0.value) = some rec)
    (hfile : dictGet s.fs rec.file_path = some (FsEntry.bytes origC)) :
    ∃ s2, approve_phase pn ap nt [(at0.value, newC)] s = Except.ok s2 ∧
      dictGet s2.artifacts (pn, at0.value) =
        some { rec with content_hash := compute_content_hash newC, was_edited := true } ∧
      (∃ e ∈ s2.edits, e.phase_number = pn ∧ e.artifact_type = at0.value ∧
        e.original_hash = compute_content_hash origC ∧
        e.edited_hash = compute_content_hash newC) ∧
      (∃ r2 snap, s2.runner = some r2 ∧ dictGet r2.snapshots pn = some snap ∧
        dictGet snap.artifacts at0.value = some newC ∧
        dictGet s2.fs (r.snapshot_base_dir ++ "/phase_" ++ toString pn ++ "/" ++
          filenameFor at0.value) = some (FsEntry.bytes newC)) := by
  have hgetsome : (dictGet arts0 at0).isSome = true := by
    rw [dictGet_of_mem_nodup hnodup hmem]
    rfl
  have hfsv : ArtifactType.fromString at0.value = some at0 := fromString_value at0 henum
  simp only [approve_phase, hg]
  rw [if_neg (by simp [hgst])]
  simp only [processEdits, List.foldl_cons, List.foldl_nil,
    processOneEdit_eq hrec hfile, hr]
  simp only [runner_approve_phase]
  rw [if_neg (by simp [hrst])]
  simp only [harts0, Option.getD_some, List.foldl_cons, List.foldl_nil, hfsv, hgetsome,
    if_true]
  refine ⟨_, rfl, ?_, ?_, ?_⟩
  · rw [(finalizeApproval_projs _ _ _ _ _).1]
    exact dictGet_dictSet_self _ _ _
  · rw [(finalizeApproval_projs _ _ _ _ _).2.1]
    refine ⟨_, List.mem_append.2 (Or.inr (List.mem_singleton.2 rfl)), rfl, rfl, rfl, rfl⟩
  · have hsnapnd : (((create_snapshot pn
        ((dictSet arts0 at0 newC).map (fun p => (p.1.value, p.2))) (some ap)
        (some nt) s.clock).artifacts).map (fun p => filenameFor p.1)).Nodup := by
      rw [create_snapshot_artifacts]
      rw [show ((dictSet arts0 at0 newC).map (fun p => (p.1.value, p.2))).map
          (fun p => filenameFor p.1) =
          ((dictSet arts0 at0 newC).map Prod.fst).map
          (fun a => filenameFor a.value) by simp [Function.comp]]
      rw [keys_dictSet_of_mem hmem newC]
      exact hnodup.map (fun a b h => filenameFor_value_inj a b h)
    have hsnapmem : (at0.value, newC) ∈ (create_snapshot pn
        ((dictSet arts0 at0 newC).map (fun p => (p.1.value, p.2))) (some ap)
        (some nt) s.clock).artifacts := by
      rw [create_snapshot_artifacts]
      exact List.mem_map.2 ⟨(at0, newC), mem_dictSet_of_mem newC hmem, rfl⟩
    rw [(finalizeApproval_projs _ _ _ _ _).2.2.1, (finalizeApproval_projs _ _ _ _ _).2.2.2]
    refine ⟨_, _, rfl, dictGet_dictSet_self _ _ _, ?_, ?_⟩
    · rw [create_snapshot_artifacts]
      apply dictGet_of_mem_nodup
      · rw [show ((dictSet arts0 at0 newC).map (fun p => (p.1.value, p.2))).map Prod.fst =
            ((dictSet arts0 at0 newC).map Prod.fst).map ArtifactType.value by
            simp [Function.comp]]
        rw [keys_dictSet_of_mem hmem newC]
        exact hnodup.map (fun a b => value_inj a b)
      · exact List.mem_map.2 ⟨(at0, newC), mem_dictSet_of_mem newC hmem, rfl⟩
    · by_cases h1 : pn = 1
      · subst h1
        rw [if_pos rfl]
        rw [dictGet_dictSet_ne]
        · exact dictGet_save_snapshot_artifact hsnapnd hsnapmem
            (filenameFor_value_ne_meta at0)
        · intro hcontra
          rw [string_append_assoc] at hcontra
          have h2 := string_append_right_inj _ hcontra
          refine filenameFor_value_ne_transcript at0 (string_append_right_inj "/"
            (x := filenameFor at0.value) (y := "questionnaire_transcript.md") ?_)
          rw [h2]
          rfl
      · rw [if_neg h1]
        exact dictGet_save_snapshot_artifact hsnapnd hsnapmem
          (filenameFor_value_ne_meta at0)


/-- Witness for C6: on the generated state sA2 (phase 1 in review, runner
active, prd generated as bytes "hi"), approving with prd edited to "hi!"
stores the edited hash, records the edit row, and freezes the edited content
into the persisted snapshot. -/
theorem claim_C6_edit_propagation_witness :
    ∃ s2, approve_phase 1 "alice" "edited" [("prd", [104, 105, 33])] sA2 = Except.ok s2 ∧
      dictGet s2.artifacts (1, "prd") = some
        { artifact_type := "prd"
          content_hash := compute_content_hash [104, 105, 33]
          file_path := "out/prd.md"
          char_count := 2
          was_edited := true } ∧
      (∃ e ∈ s2.edits, e.phase_number = 1 ∧ e.artifact_type = "prd" ∧
        e.original_hash = compute_content_hash [104, 105] ∧
        e.edited_hash = compute_content_hash [104, 105, 33]) ∧
      (∃ r2 snap, s2.runner = some r2 ∧ dictGet r2.snapshots 1 = some snap ∧
        dictGet snap.artifacts "prd" = some [104, 105, 33] ∧
        dictGet s2.fs "out/snapshots/phase_1/prd.md" =
          some (FsEntry.bytes [104, 105, 33])) :=
  claim_C6_edit_propagation 1 "alice" "edited" sA2 _ _ _ ArtifactType.prd
    [104, 105] [104, 105, 33] _ rfl rfl rfl rfl rfl (by decide) (by decide)
    (by decide) rfl rfl

end PRDGen









